import Mathlib

/-!
Verification of the StratoVirt sandbox-policy compiler spec against the
repository sources.

The policy catalog (`syscall_whitelist`, `ioctl_allow_list`, `madvise_rule`,
`futex_rule`) is embedded from `machine/src/standard_vm/x86_64/syscall.rs`.
The rule model and the instruction compiler live in `util::seccomp`, which is
outside the provided sources; they are modelled from the specification
(sections 3, 4.1 and 4.3).  The VM configuration functions
(`memory_unit_conversion`, `VmConfig::add_cpu`) are embedded from
`machine_manager/src/config/machine_config.rs`.
-/

set_option maxHeartbeats 1000000

namespace Stratovirt

/-! ## Rule model (modelled from the spec, section 3 and 4.1) -/

/-- Truncation to a 32-bit word, the meaning of the Rust `as u32` casts and of
loading the lower 32-bit word of an argument. -/
def asU32 (n : Nat) : Nat := n % 2 ^ 32

/-- Modelled from the spec: the comparison of an `ArgumentConstraint` is
`Equal`, kept as an open enumeration (`util::seccomp::SeccompCmpOpt` is not in
the provided sources). -/
inductive SeccompCmpOpt
  | Eq
  | Ne
deriving DecidableEq

/-- A constraint group: an argument index together with the OR-alternatives
collected for that index, each an operation and a 32-bit literal value. -/
abbrev ConstraintGroup := Nat × List (SeccompCmpOpt × Nat)

/-- Modelled from the spec: `util::seccomp::BpfRule` (not in the provided
sources) — one allowed syscall id plus its ordered constraint groups. -/
structure BpfRule where
  syscall : Int
  groups : List ConstraintGroup
deriving DecidableEq

/-- Modelled from the spec: `BpfRule::new` builds a rule with no constraints,
matching on the syscall number alone. -/
def BpfRule.new (nr : Int) : BpfRule := ⟨nr, []⟩

/-- Modelled from the spec (section 4.1): appending a constraint whose
argument index is already used augments that group with one more
OR-alternative; a new index opens a new AND-group at the end. -/
def addToGroups (cmp : SeccompCmpOpt) (idx val : Nat) :
    List ConstraintGroup → List ConstraintGroup
  | [] => [(idx, [(cmp, val)])]
  | (i, cs) :: rest =>
      if i = idx then (i, cs ++ [(cmp, val)]) :: rest
      else (i, cs) :: addToGroups cmp idx val rest

/-- Modelled from the spec: `BpfRule::add_constraint(cmp, args_num, value)`. -/
def BpfRule.add_constraint (r : BpfRule) (cmp : SeccompCmpOpt) (idx val : Nat) :
    BpfRule :=
  ⟨r.syscall, addToGroups cmp idx val r.groups⟩

/-- The per-call descriptor the kernel evaluates a filter against: syscall
number and six argument words (spec, section 2 and 6). -/
structure CallDesc where
  nr : Int
  args : Fin 6 → Nat

/-- Load one argument word of the descriptor; the catalog only ever uses
indices 1 and 2, indices past the six words read as zero. -/
def CallDesc.arg (d : CallDesc) (i : Nat) : Nat :=
  if h : i < 6 then d.args ⟨i, h⟩ else 0

/-- Semantics of one comparison against the loaded lower 32-bit word. -/
def cmpEval : SeccompCmpOpt → Nat → Nat → Bool
  | .Eq, a, v => a == v
  | .Ne, a, v => a != v

/-- A constraint group is satisfied when the argument word it names matches
ANY of its listed alternatives (spec: OR within a group). -/
def groupSat (d : CallDesc) (g : ConstraintGroup) : Bool :=
  g.2.any fun cv => cmpEval cv.1 (asU32 (d.arg g.1)) cv.2

/-- A rule accepts a call when the syscall number matches and every
constraint group is satisfied (spec: AND across groups). -/
def BpfRule.allows (r : BpfRule) (d : CallDesc) : Bool :=
  (d.nr == r.syscall) && r.groups.all (groupSat d)

/-! ## Instruction compiler (modelled from the spec, section 4.3)

The compiler is `util::seccomp`, outside the provided sources.  Following the
layout strategy (b) sanctioned by spec section 4.3 step 5, a compiled program
is a sequence of fixed-shape rule blocks between the prologue (one load of the
syscall-number field) and the two shared terminals; branch offsets are exact
by construction in this block form, so the only failure mode is the kernel's
instruction-count ceiling. -/

/-- One compiled rule block: the syscall id compared against the loaded
syscall-number field, and the constraint-check block entered on match. -/
structure Block where
  nr : Int
  groups : List ConstraintGroup
deriving DecidableEq

/-- Lowering of one rule to its block. -/
def BpfRule.toBlock (r : BpfRule) : Block := ⟨r.syscall, r.groups⟩

/-- Instruction budget of one rule: one compare-and-branch on the syscall
number, per group one argument load plus one compare per OR-alternative plus
the branch to the deny terminal, and the final branch to allow. -/
def ruleInstrCount (r : BpfRule) : Nat :=
  1 + (r.groups.map fun g => 1 + g.2.length + 1).sum + 1

/-- Instruction budget of a whole policy: prologue load, the rule blocks, and
the two terminal returns. -/
def policyInstrCount (p : List BpfRule) : Nat :=
  1 + (p.map ruleInstrCount).sum + 2

/-- The kernel's declared filter-length ceiling (BPF_MAXINSNS). -/
def BPF_MAXINSNS : Nat := 4096

/-- Modelled from the spec (section 7): the compilation failure carrying the
concrete instruction count and the ceiling. -/
inductive CompileError
  | PolicyTooLarge (count ceiling : Nat)
deriving DecidableEq

/-- An immutable compiled program. -/
structure CompiledProgram where
  blocks : List Block
deriving DecidableEq

/-- Modelled from the spec: compilation checks the instruction budget against
the kernel ceiling and otherwise lowers every rule, in order, to its block. -/
def compile (p : List BpfRule) : Except CompileError CompiledProgram :=
  if policyInstrCount p ≤ BPF_MAXINSNS then .ok ⟨p.map BpfRule.toBlock⟩
  else .error (.PolicyTooLarge (policyInstrCount p) BPF_MAXINSNS)

/-- The terminal dispositions of the kernel filter. -/
inductive SeccompAction
  | Allow
  | Deny
deriving DecidableEq

/-- Kernel evaluation of the block sequence: on a syscall-number mismatch fall
through to the next block; on a match the constraint block decides allow or
deny directly (a failed group short-circuits to the deny terminal); falling
off the end reaches the deny terminal (spec, section 4.3 steps 1-3). -/
def evalBlocks : List Block → CallDesc → SeccompAction
  | [], _ => .Deny
  | b :: rest, d =>
      if d.nr == b.nr then
        (if b.groups.all (groupSat d) then .Allow else .Deny)
      else evalBlocks rest d

/-- Evaluation of a compiled program on one call descriptor. -/
def evalProgram (prog : CompiledProgram) (d : CallDesc) : SeccompAction :=
  evalBlocks prog.blocks d

/-! ## Policy catalog, embedded from `machine/src/standard_vm/x86_64/syscall.rs`

Numeric literals defined in that file are embedded with their values; the
x86_64 syscall numbers come from the `libc` crate bindings of the fixed kernel
ABI.  The device and hypervisor ioctl command codes are supplied by
collaborating subsystems (`hypervisor::kvm`, `virtio::VhostKern`, `util::tap`,
`vfio`) and per spec section 6 are treated as opaque `u32` values: they are
gathered in `ExternConsts` and every catalog function is parametric in them. -/

/-- Futex operation codes, from `syscall.rs` (linux v4.19 futex.h). -/
def FUTEX_WAIT : Nat := 0
def FUTEX_WAKE : Nat := 1
def FUTEX_CMP_REQUEUE : Nat := 4
def FUTEX_WAKE_OP : Nat := 5
def FUTEX_WAIT_BITSET : Nat := 9
def FUTEX_PRIVATE_FLAG : Nat := 128
def FUTEX_CLOCK_REALTIME : Nat := 256
def FUTEX_WAIT_PRIVATE : Nat := FUTEX_WAIT ||| FUTEX_PRIVATE_FLAG
def FUTEX_WAKE_PRIVATE : Nat := FUTEX_WAKE ||| FUTEX_PRIVATE_FLAG
def FUTEX_CMP_REQUEUE_PRIVATE : Nat := FUTEX_CMP_REQUEUE ||| FUTEX_PRIVATE_FLAG
def FUTEX_WAKE_OP_PRIVATE : Nat := FUTEX_WAKE_OP ||| FUTEX_PRIVATE_FLAG
def FUTEX_WAIT_BITSET_PRIVATE : Nat := FUTEX_WAIT_BITSET ||| FUTEX_PRIVATE_FLAG

/-- Fcntl command codes, from `syscall.rs` (linux v4.19 fcntl.h). -/
def F_GETFD : Nat := 1
def F_SETFD : Nat := 2
def F_SETFL : Nat := 4
def F_LINUX_SPECIFIC_BASE : Nat := 1024
def F_DUPFD_CLOEXEC : Nat := F_LINUX_SPECIFIC_BASE + 6

/-- Terminal ioctl command codes, from `syscall.rs` (asm-generic ioctls.h). -/
def TCGETS : Nat := 0x5401
def TCSETS : Nat := 0x5402
def TIOCGWINSZ : Nat := 0x5413
def FIOCLEX : Nat := 0x5451
def FIONBIO : Nat := 0x5421
def KVM_RUN : Nat := 0xae80

/-- Linux x86_64 syscall numbers of the `libc` crate bindings used by
`syscall_whitelist` (identical under the gnu and musl C libraries). -/
def SYS_read : Int := 0
def SYS_readv : Int := 19
def SYS_write : Int := 1
def SYS_writev : Int := 20
def SYS_ioctl : Int := 16
def SYS_epoll_pwait : Int := 281
def SYS_epoll_wait : Int := 232
def SYS_io_getevents : Int := 208
def SYS_io_submit : Int := 209
def SYS_dup : Int := 32
def SYS_close : Int := 3
def SYS_eventfd2 : Int := 290
def SYS_epoll_ctl : Int := 233
def SYS_fdatasync : Int := 75
def SYS_recvmsg : Int := 47
def SYS_sendmsg : Int := 46
def SYS_recvfrom : Int := 45
def SYS_mremap : Int := 25
def SYS_io_setup : Int := 206
def SYS_brk : Int := 12
def SYS_fcntl : Int := 72
def SYS_rt_sigprocmask : Int := 14
def SYS_open : Int := 2
def SYS_openat : Int := 257
def SYS_sigaltstack : Int := 131
def SYS_mmap : Int := 9
def SYS_mprotect : Int := 10
def SYS_munmap : Int := 11
def SYS_accept4 : Int := 288
def SYS_lseek : Int := 8
def SYS_futex : Int := 202
def SYS_exit : Int := 60
def SYS_exit_group : Int := 231
def SYS_rt_sigreturn : Int := 15
def SYS_tkill : Int := 200
def SYS_stat : Int := 4
def SYS_tgkill : Int := 234
def SYS_gettid : Int := 186
def SYS_getpid : Int := 39
def SYS_fstat : Int := 5
def SYS_newfstatat : Int := 262
def SYS_pread64 : Int := 17
def SYS_pwrite64 : Int := 18
def SYS_statx : Int := 332
def SYS_mkdir : Int := 83
def SYS_unlink : Int := 87
def SYS_madvise : Int := 28
def SYS_msync : Int := 26
def SYS_readlinkat : Int := 267
def SYS_readlink : Int := 89
def SYS_socket : Int := 41
def SYS_connect : Int := 42
def SYS_getcwd : Int := 79
def SYS_clone : Int := 56
def SYS_clone3 : Int := 435
def SYS_prctl : Int := 157
def SYS_sendto : Int := 44
def SYS_getsockname : Int := 51
def SYS_getpeername : Int := 52
def SYS_shutdown : Int := 48
def SYS_getrandom : Int := 318
def SYS_setsockopt : Int := 54
def SYS_rt_sigaction : Int := 13
def SYS_set_robust_list : Int := 273
def SYS_sched_getaffinity : Int := 204

/-- Madvise advice codes of the `libc` crate (fixed Linux values). -/
def MADV_FREE : Nat := 8
def MADV_DONTNEED : Nat := 4
def MADV_WILLNEED : Nat := 3
def MADV_DONTDUMP : Nat := 16

/-- The numeric ioctl command identifiers supplied by the collaborating
subsystems (`hypervisor::kvm`, `virtio::VhostKern`, `util::tap`, `vfio`); per
spec section 6 the core does not interpret them, it only compares them, so
the catalog is parametric in this record of opaque values. -/
structure ExternConsts where
  KVM_SET_DEVICE_ATTR : Nat
  KVM_SET_USER_MEMORY_REGION : Nat
  KVM_IOEVENTFD : Nat
  KVM_SIGNAL_MSI : Nat
  VHOST_VSOCK_SET_GUEST_CID : Nat
  VHOST_VSOCK_SET_RUNNING : Nat
  VHOST_SET_VRING_CALL : Nat
  VHOST_SET_VRING_NUM : Nat
  VHOST_GET_VRING_BASE : Nat
  VHOST_SET_VRING_ADDR : Nat
  VHOST_SET_VRING_BASE : Nat
  VHOST_SET_VRING_KICK : Nat
  VHOST_SET_OWNER : Nat
  VHOST_SET_FEATURES : Nat
  VHOST_GET_FEATURES : Nat
  VHOST_SET_MEM_TABLE : Nat
  VHOST_NET_SET_BACKEND : Nat
  VHOST_RESET_OWNER : Nat
  TUNGETFEATURES : Nat
  TUNSETIFF : Nat
  TUNSETOFFLOAD : Nat
  TUNSETVNETHDRSZ : Nat
  KVM_SET_GSI_ROUTING : Nat
  KVM_IRQFD : Nat
  VFIO_DEVICE_SET_IRQS : Nat
  VFIO_GROUP_GET_STATUS : Nat
  VFIO_GET_API_VERSION : Nat
  VFIO_CHECK_EXTENSION : Nat
  VFIO_GROUP_SET_CONTAINER : Nat
  VFIO_SET_IOMMU : Nat
  KVM_CREATE_DEVICE : Nat
  VFIO_IOMMU_MAP_DMA : Nat
  VFIO_IOMMU_UNMAP_DMA : Nat
  VFIO_GROUP_GET_DEVICE_FD : Nat
  VFIO_DEVICE_GET_INFO : Nat
  VFIO_DEVICE_RESET : Nat
  VFIO_DEVICE_GET_REGION_INFO : Nat
  VFIO_DEVICE_GET_IRQ_INFO : Nat
  KVM_GET_API_VERSION : Nat
  KVM_GET_MP_STATE : Nat
  KVM_GET_VCPU_EVENTS : Nat
  KVM_GET_PIT2 : Nat
  KVM_GET_CLOCK : Nat
  KVM_GET_IRQCHIP : Nat
  KVM_GET_REGS : Nat
  KVM_GET_SREGS : Nat
  KVM_GET_XSAVE : Nat
  KVM_GET_DEBUGREGS : Nat
  KVM_GET_XCRS : Nat
  KVM_GET_LAPIC : Nat
  KVM_GET_MSRS : Nat
  KVM_GET_SUPPORTED_CPUID : Nat
  KVM_SET_CPUID2 : Nat
  KVM_SET_MP_STATE : Nat
  KVM_SET_SREGS : Nat
  KVM_SET_REGS : Nat
  KVM_SET_XSAVE : Nat
  KVM_SET_XCRS : Nat
  KVM_SET_DEBUGREGS : Nat
  KVM_SET_LAPIC : Nat
  KVM_SET_MSRS : Nat
  KVM_SET_VCPU_EVENTS : Nat
  KVM_GET_DIRTY_LOG : Nat

/-- The C-library ABI variants the catalog is built for (`target_env`). -/
inductive TargetEnv
  | gnu
  | musl
deriving DecidableEq

def TargetEnv.isGnu : TargetEnv → Bool
  | .gnu => true
  | .musl => false

def TargetEnv.isMusl : TargetEnv → Bool
  | .gnu => false
  | .musl => true

/-- Conditional inclusion of one rule, the meaning of a `#[cfg(...)]` gate on
one element of the whitelist vector. -/
def cfgRule (b : Bool) (r : BpfRule) : List BpfRule :=
  if b then [r] else []

/-- Embeds `ioctl_allow_list` of `syscall.rs`: the `ioctl` rule with every
permitted command code as an OR-alternative on argument index 1 (the `as u32`
casts of the externally supplied codes become `asU32`). -/
def ioctl_allow_list (ec : ExternConsts) : BpfRule :=
  (BpfRule.new SYS_ioctl).add_constraint .Eq 1 TCGETS
    |>.add_constraint .Eq 1 TCSETS
    |>.add_constraint .Eq 1 TIOCGWINSZ
    |>.add_constraint .Eq 1 FIOCLEX
    |>.add_constraint .Eq 1 FIONBIO
    |>.add_constraint .Eq 1 KVM_RUN
    |>.add_constraint .Eq 1 ec.KVM_SET_DEVICE_ATTR
    |>.add_constraint .Eq 1 ec.KVM_SET_USER_MEMORY_REGION
    |>.add_constraint .Eq 1 ec.KVM_IOEVENTFD
    |>.add_constraint .Eq 1 ec.KVM_SIGNAL_MSI
    |>.add_constraint .Eq 1 (asU32 ec.VHOST_VSOCK_SET_GUEST_CID)
    |>.add_constraint .Eq 1 (asU32 ec.VHOST_VSOCK_SET_RUNNING)
    |>.add_constraint .Eq 1 (asU32 ec.VHOST_SET_VRING_CALL)
    |>.add_constraint .Eq 1 (asU32 ec.VHOST_SET_VRING_NUM)
    |>.add_constraint .Eq 1 (asU32 ec.VHOST_GET_VRING_BASE)
    |>.add_constraint .Eq 1 (asU32 ec.VHOST_SET_VRING_ADDR)
    |>.add_constraint .Eq 1 (asU32 ec.VHOST_SET_VRING_BASE)
    |>.add_constraint .Eq 1 (asU32 ec.VHOST_SET_VRING_KICK)
    |>.add_constraint .Eq 1 (asU32 ec.VHOST_SET_OWNER)
    |>.add_constraint .Eq 1 (asU32 ec.VHOST_SET_FEATURES)
    |>.add_constraint .Eq 1 (asU32 ec.VHOST_GET_FEATURES)
    |>.add_constraint .Eq 1 (asU32 ec.VHOST_SET_MEM_TABLE)
    |>.add_constraint .Eq 1 (asU32 ec.VHOST_NET_SET_BACKEND)
    |>.add_constraint .Eq 1 (asU32 ec.VHOST_GET_FEATURES)
    |>.add_constraint .Eq 1 (asU32 ec.VHOST_RESET_OWNER)
    |>.add_constraint .Eq 1 (asU32 ec.TUNGETFEATURES)
    |>.add_constraint .Eq 1 (asU32 ec.TUNSETIFF)
    |>.add_constraint .Eq 1 (asU32 ec.TUNSETOFFLOAD)
    |>.add_constraint .Eq 1 (asU32 ec.TUNSETVNETHDRSZ)
    |>.add_constraint .Eq 1 (asU32 ec.KVM_SET_GSI_ROUTING)
    |>.add_constraint .Eq 1 (asU32 ec.KVM_IRQFD)
    |>.add_constraint .Eq 1 (asU32 ec.VFIO_DEVICE_SET_IRQS)
    |>.add_constraint .Eq 1 (asU32 ec.VFIO_GROUP_GET_STATUS)
    |>.add_constraint .Eq 1 (asU32 ec.VFIO_GET_API_VERSION)
    |>.add_constraint .Eq 1 (asU32 ec.VFIO_CHECK_EXTENSION)
    |>.add_constraint .Eq 1 (asU32 ec.VFIO_GROUP_SET_CONTAINER)
    |>.add_constraint .Eq 1 (asU32 ec.VFIO_SET_IOMMU)
    |>.add_constraint .Eq 1 (asU32 ec.KVM_CREATE_DEVICE)
    |>.add_constraint .Eq 1 (asU32 ec.VFIO_IOMMU_MAP_DMA)
    |>.add_constraint .Eq 1 (asU32 ec.VFIO_IOMMU_UNMAP_DMA)
    |>.add_constraint .Eq 1 (asU32 ec.VFIO_GROUP_GET_DEVICE_FD)
    |>.add_constraint .Eq 1 (asU32 ec.VFIO_DEVICE_GET_INFO)
    |>.add_constraint .Eq 1 (asU32 ec.VFIO_DEVICE_RESET)
    |>.add_constraint .Eq 1 (asU32 ec.VFIO_DEVICE_GET_REGION_INFO)
    |>.add_constraint .Eq 1 (asU32 ec.VFIO_DEVICE_GET_IRQ_INFO)
    |>.add_constraint .Eq 1 (asU32 ec.KVM_GET_API_VERSION)
    |>.add_constraint .Eq 1 (asU32 ec.KVM_GET_MP_STATE)
    |>.add_constraint .Eq 1 (asU32 ec.KVM_GET_VCPU_EVENTS)
    |>.add_constraint .Eq 1 (asU32 ec.KVM_GET_PIT2)
    |>.add_constraint .Eq 1 (asU32 ec.KVM_GET_CLOCK)
    |>.add_constraint .Eq 1 (asU32 ec.KVM_GET_IRQCHIP)
    |>.add_constraint .Eq 1 (asU32 ec.KVM_GET_REGS)
    |>.add_constraint .Eq 1 (asU32 ec.KVM_GET_SREGS)
    |>.add_constraint .Eq 1 (asU32 ec.KVM_GET_XSAVE)
    |>.add_constraint .Eq 1 (asU32 ec.KVM_GET_SREGS)
    |>.add_constraint .Eq 1 (asU32 ec.KVM_GET_DEBUGREGS)
    |>.add_constraint .Eq 1 (asU32 ec.KVM_GET_XCRS)
    |>.add_constraint .Eq 1 (asU32 ec.KVM_GET_LAPIC)
    |>.add_constraint .Eq 1 (asU32 ec.KVM_GET_MSRS)
    |>.add_constraint .Eq 1 (asU32 ec.KVM_GET_SUPPORTED_CPUID)
    |>.add_constraint .Eq 1 (asU32 ec.KVM_SET_CPUID2)
    |>.add_constraint .Eq 1 (asU32 ec.KVM_SET_MP_STATE)
    |>.add_constraint .Eq 1 (asU32 ec.KVM_SET_SREGS)
    |>.add_constraint .Eq 1 (asU32 ec.KVM_SET_REGS)
    |>.add_constraint .Eq 1 (asU32 ec.KVM_SET_XSAVE)
    |>.add_constraint .Eq 1 (asU32 ec.KVM_SET_XCRS)
    |>.add_constraint .Eq 1 (asU32 ec.KVM_SET_DEBUGREGS)
    |>.add_constraint .Eq 1 (asU32 ec.KVM_SET_LAPIC)
    |>.add_constraint .Eq 1 (asU32 ec.KVM_SET_MSRS)
    |>.add_constraint .Eq 1 (asU32 ec.KVM_SET_VCPU_EVENTS)
    |>.add_constraint .Eq 1 (asU32 ec.KVM_GET_DIRTY_LOG)

/-- The `ioctl_allow_list` chain with its two duplicate `add_constraint`
calls removed (the second `VHOST_GET_FEATURES` and the second
`KVM_GET_SREGS`); used to state that the duplicates are semantically inert. -/
def ioctl_allow_list_dedup (ec : ExternConsts) : BpfRule :=
  (BpfRule.new SYS_ioctl).add_constraint .Eq 1 TCGETS
    |>.add_constraint .Eq 1 TCSETS
    |>.add_constraint .Eq 1 TIOCGWINSZ
    |>.add_constraint .Eq 1 FIOCLEX
    |>.add_constraint .Eq 1 FIONBIO
    |>.add_constraint .Eq 1 KVM_RUN
    |>.add_constraint .Eq 1 ec.KVM_SET_DEVICE_ATTR
    |>.add_constraint .Eq 1 ec.KVM_SET_USER_MEMORY_REGION
    |>.add_constraint .Eq 1 ec.KVM_IOEVENTFD
    |>.add_constraint .Eq 1 ec.KVM_SIGNAL_MSI
    |>.add_constraint .Eq 1 (asU32 ec.VHOST_VSOCK_SET_GUEST_CID)
    |>.add_constraint .Eq 1 (asU32 ec.VHOST_VSOCK_SET_RUNNING)
    |>.add_constraint .Eq 1 (asU32 ec.VHOST_SET_VRING_CALL)
    |>.add_constraint .Eq 1 (asU32 ec.VHOST_SET_VRING_NUM)
    |>.add_constraint .Eq 1 (asU32 ec.VHOST_GET_VRING_BASE)
    |>.add_constraint .Eq 1 (asU32 ec.VHOST_SET_VRING_ADDR)
    |>.add_constraint .Eq 1 (asU32 ec.VHOST_SET_VRING_BASE)
    |>.add_constraint .Eq 1 (asU32 ec.VHOST_SET_VRING_KICK)
    |>.add_constraint .Eq 1 (asU32 ec.VHOST_SET_OWNER)
    |>.add_constraint .Eq 1 (asU32 ec.VHOST_SET_FEATURES)
    |>.add_constraint .Eq 1 (asU32 ec.VHOST_GET_FEATURES)
    |>.add_constraint .Eq 1 (asU32 ec.VHOST_SET_MEM_TABLE)
    |>.add_constraint .Eq 1 (asU32 ec.VHOST_NET_SET_BACKEND)
    |>.add_constraint .Eq 1 (asU32 ec.VHOST_RESET_OWNER)
    |>.add_constraint .Eq 1 (asU32 ec.TUNGETFEATURES)
    |>.add_constraint .Eq 1 (asU32 ec.TUNSETIFF)
    |>.add_constraint .Eq 1 (asU32 ec.TUNSETOFFLOAD)
    |>.add_constraint .Eq 1 (asU32 ec.TUNSETVNETHDRSZ)
    |>.add_constraint .Eq 1 (asU32 ec.KVM_SET_GSI_ROUTING)
    |>.add_constraint .Eq 1 (asU32 ec.KVM_IRQFD)
    |>.add_constraint .Eq 1 (asU32 ec.VFIO_DEVICE_SET_IRQS)
    |>.add_constraint .Eq 1 (asU32 ec.VFIO_GROUP_GET_STATUS)
    |>.add_constraint .Eq 1 (asU32 ec.VFIO_GET_API_VERSION)
    |>.add_constraint .Eq 1 (asU32 ec.VFIO_CHECK_EXTENSION)
    |>.add_constraint .Eq 1 (asU32 ec.VFIO_GROUP_SET_CONTAINER)
    |>.add_constraint .Eq 1 (asU32 ec.VFIO_SET_IOMMU)
    |>.add_constraint .Eq 1 (asU32 ec.KVM_CREATE_DEVICE)
    |>.add_constraint .Eq 1 (asU32 ec.VFIO_IOMMU_MAP_DMA)
    |>.add_constraint .Eq 1 (asU32 ec.VFIO_IOMMU_UNMAP_DMA)
    |>.add_constraint .Eq 1 (asU32 ec.VFIO_GROUP_GET_DEVICE_FD)
    |>.add_constraint .Eq 1 (asU32 ec.VFIO_DEVICE_GET_INFO)
    |>.add_constraint .Eq 1 (asU32 ec.VFIO_DEVICE_RESET)
    |>.add_constraint .Eq 1 (asU32 ec.VFIO_DEVICE_GET_REGION_INFO)
    |>.add_constraint .Eq 1 (asU32 ec.VFIO_DEVICE_GET_IRQ_INFO)
    |>.add_constraint .Eq 1 (asU32 ec.KVM_GET_API_VERSION)
    |>.add_constraint .Eq 1 (asU32 ec.KVM_GET_MP_STATE)
    |>.add_constraint .Eq 1 (asU32 ec.KVM_GET_VCPU_EVENTS)
    |>.add_constraint .Eq 1 (asU32 ec.KVM_GET_PIT2)
    |>.add_constraint .Eq 1 (asU32 ec.KVM_GET_CLOCK)
    |>.add_constraint .Eq 1 (asU32 ec.KVM_GET_IRQCHIP)
    |>.add_constraint .Eq 1 (asU32 ec.KVM_GET_REGS)
    |>.add_constraint .Eq 1 (asU32 ec.KVM_GET_SREGS)
    |>.add_constraint .Eq 1 (asU32 ec.KVM_GET_XSAVE)
    |>.add_constraint .Eq 1 (asU32 ec.KVM_GET_DEBUGREGS)
    |>.add_constraint .Eq 1 (asU32 ec.KVM_GET_XCRS)
    |>.add_constraint .Eq 1 (asU32 ec.KVM_GET_LAPIC)
    |>.add_constraint .Eq 1 (asU32 ec.KVM_GET_MSRS)
    |>.add_constraint .Eq 1 (asU32 ec.KVM_GET_SUPPORTED_CPUID)
    |>.add_constraint .Eq 1 (asU32 ec.KVM_SET_CPUID2)
    |>.add_constraint .Eq 1 (asU32 ec.KVM_SET_MP_STATE)
    |>.add_constraint .Eq 1 (asU32 ec.KVM_SET_SREGS)
    |>.add_constraint .Eq 1 (asU32 ec.KVM_SET_REGS)
    |>.add_constraint .Eq 1 (asU32 ec.KVM_SET_XSAVE)
    |>.add_constraint .Eq 1 (asU32 ec.KVM_SET_XCRS)
    |>.add_constraint .Eq 1 (asU32 ec.KVM_SET_DEBUGREGS)
    |>.add_constraint .Eq 1 (asU32 ec.KVM_SET_LAPIC)
    |>.add_constraint .Eq 1 (asU32 ec.KVM_SET_MSRS)
    |>.add_constraint .Eq 1 (asU32 ec.KVM_SET_VCPU_EVENTS)
    |>.add_constraint .Eq 1 (asU32 ec.KVM_GET_DIRTY_LOG)

/-- Embeds the inline `fcntl` entry of `syscall_whitelist` (lines 84-88 of
`syscall.rs`): allowed fcntl commands as OR-alternatives on argument 1. -/
def fcntl_rule : BpfRule :=
  (BpfRule.new SYS_fcntl).add_constraint .Eq 1 F_DUPFD_CLOEXEC
    |>.add_constraint .Eq 1 F_SETFD
    |>.add_constraint .Eq 1 F_GETFD
    |>.add_constraint .Eq 1 F_SETFL

/-- Embeds `madvise_rule` of `syscall.rs`: permitted advice values on
argument index 2, differing per ABI variant (`MADV_FREE` is musl-only). -/
def madvise_rule (env : TargetEnv) : BpfRule :=
  match env with
  | .musl =>
      (BpfRule.new SYS_madvise).add_constraint .Eq 2 (asU32 MADV_FREE)
        |>.add_constraint .Eq 2 (asU32 MADV_DONTNEED)
        |>.add_constraint .Eq 2 (asU32 MADV_WILLNEED)
        |>.add_constraint .Eq 2 (asU32 MADV_DONTDUMP)
  | .gnu =>
      (BpfRule.new SYS_madvise).add_constraint .Eq 2 (asU32 MADV_DONTNEED)
        |>.add_constraint .Eq 2 (asU32 MADV_WILLNEED)
        |>.add_constraint .Eq 2 (asU32 MADV_DONTDUMP)

/-- Embeds `futex_rule` of `syscall.rs`: permitted futex operations on
argument index 1, with a gnu-only clock-realtime alternative. -/
def futex_rule (env : TargetEnv) : BpfRule :=
  match env with
  | .musl =>
      (BpfRule.new SYS_futex).add_constraint .Eq 1 FUTEX_WAKE_PRIVATE
        |>.add_constraint .Eq 1 FUTEX_WAIT_PRIVATE
        |>.add_constraint .Eq 1 FUTEX_CMP_REQUEUE_PRIVATE
        |>.add_constraint .Eq 1 FUTEX_WAKE_OP_PRIVATE
        |>.add_constraint .Eq 1 FUTEX_WAIT_BITSET_PRIVATE
  | .gnu =>
      (BpfRule.new SYS_futex).add_constraint .Eq 1
          (FUTEX_WAIT_BITSET_PRIVATE ||| FUTEX_CLOCK_REALTIME)
        |>.add_constraint .Eq 1 FUTEX_WAKE_PRIVATE
        |>.add_constraint .Eq 1 FUTEX_WAIT_PRIVATE
        |>.add_constraint .Eq 1 FUTEX_CMP_REQUEUE_PRIVATE
        |>.add_constraint .Eq 1 FUTEX_WAKE_OP_PRIVATE
        |>.add_constraint .Eq 1 FUTEX_WAIT_BITSET_PRIVATE

/-- Embeds `syscall_whitelist` of `syscall.rs`: the ordered x86_64 allow-list,
with each `#[cfg(target_env = ...)]`-gated entry resolved by the requested ABI
variant (`#[cfg(not(target_env = "gnu"))]` gates `epoll_pwait`). -/
def syscall_whitelist (env : TargetEnv) (ec : ExternConsts) : List BpfRule :=
  [BpfRule.new SYS_read,
   BpfRule.new SYS_readv,
   BpfRule.new SYS_write,
   BpfRule.new SYS_writev,
   ioctl_allow_list ec]
  ++ cfgRule (!env.isGnu) (BpfRule.new SYS_epoll_pwait)
  ++ [BpfRule.new SYS_epoll_wait,
      BpfRule.new SYS_io_getevents,
      BpfRule.new SYS_io_submit,
      BpfRule.new SYS_dup,
      BpfRule.new SYS_close,
      BpfRule.new SYS_eventfd2,
      BpfRule.new SYS_epoll_ctl,
      BpfRule.new SYS_fdatasync,
      BpfRule.new SYS_recvmsg,
      BpfRule.new SYS_sendmsg,
      BpfRule.new SYS_recvfrom,
      BpfRule.new SYS_mremap,
      BpfRule.new SYS_io_setup,
      BpfRule.new SYS_brk,
      fcntl_rule,
      BpfRule.new SYS_rt_sigprocmask,
      BpfRule.new SYS_open,
      BpfRule.new SYS_openat,
      BpfRule.new SYS_sigaltstack,
      BpfRule.new SYS_mmap,
      BpfRule.new SYS_mprotect,
      BpfRule.new SYS_munmap,
      BpfRule.new SYS_accept4,
      BpfRule.new SYS_lseek,
      futex_rule env,
      BpfRule.new SYS_exit,
      BpfRule.new SYS_exit_group,
      BpfRule.new SYS_rt_sigreturn]
  ++ cfgRule env.isMusl (BpfRule.new SYS_tkill)
  ++ cfgRule env.isMusl (BpfRule.new SYS_stat)
  ++ cfgRule env.isGnu (BpfRule.new SYS_tgkill)
  ++ [BpfRule.new SYS_gettid,
      BpfRule.new SYS_getpid,
      BpfRule.new SYS_fstat,
      BpfRule.new SYS_newfstatat,
      BpfRule.new SYS_pread64,
      BpfRule.new SYS_pwrite64,
      BpfRule.new SYS_statx,
      BpfRule.new SYS_mkdir,
      BpfRule.new SYS_unlink,
      madvise_rule env,
      BpfRule.new SYS_msync,
      BpfRule.new SYS_readlinkat,
      BpfRule.new SYS_readlink,
      BpfRule.new SYS_socket,
      BpfRule.new SYS_connect,
      BpfRule.new SYS_getcwd]
  ++ cfgRule env.isMusl (BpfRule.new SYS_clone)
  ++ cfgRule env.isGnu (BpfRule.new SYS_clone3)
  ++ [BpfRule.new SYS_prctl,
      BpfRule.new SYS_sendto,
      BpfRule.new SYS_getsockname,
      BpfRule.new SYS_getpeername,
      BpfRule.new SYS_shutdown,
      BpfRule.new SYS_getrandom,
      BpfRule.new SYS_setsockopt]
  ++ cfgRule env.isGnu (BpfRule.new SYS_rt_sigaction)
  ++ cfgRule env.isGnu (BpfRule.new SYS_set_robust_list)
  ++ cfgRule env.isGnu (BpfRule.new SYS_sched_getaffinity)

/-! ## Helper lemmas about rule construction -/

theorem new_groups (nr : Int) : (BpfRule.new nr).groups = [] := rfl

theorem add_constraint_syscall (r : BpfRule) (cmp : SeccompCmpOpt) (idx v : Nat) :
    (r.add_constraint cmp idx v).syscall = r.syscall := rfl

theorem add_constraint_groups (r : BpfRule) (cmp : SeccompCmpOpt) (idx v : Nat) :
    (r.add_constraint cmp idx v).groups = addToGroups cmp idx v r.groups := rfl

/-- Appending one more constraint on the index a rule already constrains
keeps its single constraint group on that index. -/
theorem groups_fst_step (r : BpfRule) (cmp : SeccompCmpOpt) (idx v : Nat)
    (h : r.groups.map Prod.fst = [idx]) :
    (r.add_constraint cmp idx v).groups.map Prod.fst = [idx] := by
  rcases hg : r.groups with _ | ⟨⟨i, cs⟩, rest⟩
  · rw [hg] at h
    simp at h
  · rw [hg] at h
    simp only [List.map_cons, List.cons.injEq] at h
    obtain ⟨hi, hrest⟩ := h
    have hr : rest = [] := List.map_eq_nil_iff.mp hrest
    subst hi hr
    simp [add_constraint_groups, hg, addToGroups]

/-- The first constraint of a fresh rule opens the one group on its index. -/
theorem groups_fst_base (nr : Int) (cmp : SeccompCmpOpt) (idx v : Nat) :
    ((BpfRule.new nr).add_constraint cmp idx v).groups.map Prod.fst = [idx] := rfl

/-- Every constraint of the ioctl rule targets argument index 1, and they all
live in one group. -/
theorem ioctl_groups_fst (ec : ExternConsts) :
    (ioctl_allow_list ec).groups.map Prod.fst = [1] := by
  unfold ioctl_allow_list
  iterate 70 apply groups_fst_step
  exact groups_fst_base SYS_ioctl .Eq 1 TCGETS

/-- Every constraint of the deduplicated ioctl rule targets argument 1. -/
theorem ioctl_dedup_groups_fst (ec : ExternConsts) :
    (ioctl_allow_list_dedup ec).groups.map Prod.fst = [1] := by
  unfold ioctl_allow_list_dedup
  iterate 68 apply groups_fst_step
  exact groups_fst_base SYS_ioctl .Eq 1 TCGETS

/-- Every constraint of the fcntl rule targets argument index 1. -/
theorem fcntl_groups_fst : fcntl_rule.groups.map Prod.fst = [1] := rfl

/-- Every constraint of the futex rule targets argument index 1. -/
theorem futex_groups_fst (env : TargetEnv) :
    (futex_rule env).groups.map Prod.fst = [1] := by
  cases env <;> rfl

/-- Every constraint of the madvise rule targets argument index 2. -/
theorem madvise_groups_fst (env : TargetEnv) :
    (madvise_rule env).groups.map Prod.fst = [2] := by
  cases env <;> rfl

theorem ioctl_syscall (ec : ExternConsts) :
    (ioctl_allow_list ec).syscall = SYS_ioctl := rfl

theorem futex_syscall (env : TargetEnv) :
    (futex_rule env).syscall = SYS_futex := by
  cases env <;> rfl

theorem madvise_syscall (env : TargetEnv) :
    (madvise_rule env).syscall = SYS_madvise := by
  cases env <;> rfl

/-- The syscall ids of the gnu whitelist, in catalog order. -/
theorem whitelist_ids_gnu (ec : ExternConsts) :
    (syscall_whitelist .gnu ec).map BpfRule.syscall =
    [SYS_read, SYS_readv, SYS_write, SYS_writev, SYS_ioctl,
     SYS_epoll_wait, SYS_io_getevents, SYS_io_submit, SYS_dup, SYS_close,
     SYS_eventfd2, SYS_epoll_ctl, SYS_fdatasync, SYS_recvmsg, SYS_sendmsg,
     SYS_recvfrom, SYS_mremap, SYS_io_setup, SYS_brk, SYS_fcntl,
     SYS_rt_sigprocmask, SYS_open, SYS_openat, SYS_sigaltstack, SYS_mmap,
     SYS_mprotect, SYS_munmap, SYS_accept4, SYS_lseek, SYS_futex,
     SYS_exit, SYS_exit_group, SYS_rt_sigreturn, SYS_tgkill, SYS_gettid,
     SYS_getpid, SYS_fstat, SYS_newfstatat, SYS_pread64, SYS_pwrite64,
     SYS_statx, SYS_mkdir, SYS_unlink, SYS_madvise, SYS_msync,
     SYS_readlinkat, SYS_readlink, SYS_socket, SYS_connect, SYS_getcwd,
     SYS_clone3, SYS_prctl, SYS_sendto, SYS_getsockname, SYS_getpeername,
     SYS_shutdown, SYS_getrandom, SYS_setsockopt, SYS_rt_sigaction,
     SYS_set_robust_list, SYS_sched_getaffinity] := rfl

/-- The syscall ids of the musl whitelist, in catalog order. -/
theorem whitelist_ids_musl (ec : ExternConsts) :
    (syscall_whitelist .musl ec).map BpfRule.syscall =
    [SYS_read, SYS_readv, SYS_write, SYS_writev, SYS_ioctl,
     SYS_epoll_pwait, SYS_epoll_wait, SYS_io_getevents, SYS_io_submit,
     SYS_dup, SYS_close, SYS_eventfd2, SYS_epoll_ctl, SYS_fdatasync,
     SYS_recvmsg, SYS_sendmsg, SYS_recvfrom, SYS_mremap, SYS_io_setup,
     SYS_brk, SYS_fcntl, SYS_rt_sigprocmask, SYS_open, SYS_openat,
     SYS_sigaltstack, SYS_mmap, SYS_mprotect, SYS_munmap, SYS_accept4,
     SYS_lseek, SYS_futex, SYS_exit, SYS_exit_group, SYS_rt_sigreturn,
     SYS_tkill, SYS_stat, SYS_gettid, SYS_getpid, SYS_fstat,
     SYS_newfstatat, SYS_pread64, SYS_pwrite64, SYS_statx, SYS_mkdir,
     SYS_unlink, SYS_madvise, SYS_msync, SYS_readlinkat, SYS_readlink,
     SYS_socket, SYS_connect, SYS_getcwd, SYS_clone, SYS_prctl,
     SYS_sendto, SYS_getsockname, SYS_getpeername, SYS_shutdown,
     SYS_getrandom, SYS_setsockopt] := rfl

/-- The per-rule constraint-group index lists of the gnu whitelist. -/
theorem whitelist_groups_fst_gnu (ec : ExternConsts) :
    (syscall_whitelist .gnu ec).map (fun r => r.groups.map Prod.fst) =
    [[], [], [], [], [1], [], [], [], [], [],
     [], [], [], [], [], [], [], [], [], [1],
     [], [], [], [], [], [], [], [], [], [1],
     [], [], [], [], [], [], [], [], [], [],
     [], [], [], [2], [], [], [], [], [], [],
     [], [], [], [], [], [], [], [], [], [],
     []] := by
  simp [syscall_whitelist, cfgRule, TargetEnv.isGnu, TargetEnv.isMusl,
    new_groups, ioctl_groups_fst, fcntl_groups_fst, futex_groups_fst,
    madvise_groups_fst]

/-- The per-rule constraint-group index lists of the musl whitelist. -/
theorem whitelist_groups_fst_musl (ec : ExternConsts) :
    (syscall_whitelist .musl ec).map (fun r => r.groups.map Prod.fst) =
    [[], [], [], [], [1], [], [], [], [], [],
     [], [], [], [], [], [], [], [], [], [],
     [1], [], [], [], [], [], [], [], [], [],
     [1], [], [], [], [], [], [], [], [], [],
     [], [], [], [], [], [2], [], [], [], [],
     [], [], [], [], [], [], [], [], [], []] := by
  simp [syscall_whitelist, cfgRule, TargetEnv.isGnu, TargetEnv.isMusl,
    new_groups, ioctl_groups_fst, fcntl_groups_fst, futex_groups_fst,
    madvise_groups_fst]

/-! ## Claim theorems: compiler and catalog -/

/-- C1.  Default-deny: for every policy and every call descriptor whose
syscall id appears in no rule of the policy, compiling the policy and
evaluating the compiled program on that descriptor (whatever its argument
values) reaches the deny terminal; the empty policy is the special case with
no rules at all, so every syscall is denied under it. -/
theorem default_deny (p : List BpfRule) (d : CallDesc)
    (h : d.nr ∉ p.map BpfRule.syscall)
    (prog : CompiledProgram) (hc : compile p = .ok prog) :
    evalProgram prog d = .Deny := by
  have hblocks : prog.blocks = p.map BpfRule.toBlock := by
    unfold compile at hc
    split at hc
    · cases hc
      rfl
    · cases hc
  unfold evalProgram
  rw [hblocks]
  clear hc hblocks
  induction p with
  | nil => rfl
  | cons r rest ih =>
      simp only [List.map_cons, List.mem_cons, not_or] at h
      obtain ⟨hne, hrest⟩ := h
      simp only [List.map_cons, evalBlocks, BpfRule.toBlock]
      rw [if_neg]
      · exact ih hrest
      · simp [hne]

/-- Witness for C1 at a concrete input: the empty policy compiles, and the
compiled program denies syscall 0. -/
theorem default_deny_witness :
    ((0 : Int) ∉ ([] : List BpfRule).map BpfRule.syscall) ∧
    compile ([] : List BpfRule) = .ok ⟨[]⟩ ∧
    evalProgram ⟨[]⟩ ⟨0, fun _ => 0⟩ = .Deny := by
  refine ⟨by simp, rfl, ?_⟩
  exact default_deny [] ⟨0, fun _ => 0⟩ (by simp) ⟨[]⟩ rfl

/-- C2.  Constraint-group invariant of the catalog: every constraint of the
ioctl, fcntl and futex rules targets argument index 1 and they form a single
group, every constraint of the madvise rule targets argument index 2, and no
rule of `syscall_whitelist` has two constraint groups sharing an argument
index (their index lists are duplicate-free). -/
theorem catalog_groups_invariant (env : TargetEnv) (ec : ExternConsts) :
    (ioctl_allow_list ec).groups.map Prod.fst = [1] ∧
    fcntl_rule.groups.map Prod.fst = [1] ∧
    (futex_rule env).groups.map Prod.fst = [1] ∧
    (madvise_rule env).groups.map Prod.fst = [2] ∧
    ∀ r ∈ syscall_whitelist env ec, (r.groups.map Prod.fst).Nodup := by
  refine ⟨ioctl_groups_fst ec, fcntl_groups_fst, futex_groups_fst env,
    madvise_groups_fst env, ?_⟩
  intro r hr
  have hm : r.groups.map Prod.fst ∈
      (syscall_whitelist env ec).map (fun r => r.groups.map Prod.fst) :=
    List.mem_map_of_mem _ hr
  cases env
  · rw [whitelist_groups_fst_gnu] at hm
    exact (by decide :
      ∀ l ∈ [([] : List Nat), [], [], [], [1], [], [], [], [], [],
        [], [], [], [], [], [], [], [], [], [1],
        [], [], [], [], [], [], [], [], [], [1],
        [], [], [], [], [], [], [], [], [], [],
        [], [], [], [2], [], [], [], [], [], [],
        [], [], [], [], [], [], [], [], [], [],
        []], l.Nodup) _ hm
  · rw [whitelist_groups_fst_musl] at hm
    exact (by decide :
      ∀ l ∈ [([] : List Nat), [], [], [], [1], [], [], [], [], [],
        [], [], [], [], [], [], [], [], [], [],
        [1], [], [], [], [], [], [], [], [], [],
        [1], [], [], [], [], [], [], [], [], [],
        [], [], [], [], [], [2], [], [], [], [],
        [], [], [], [], [], [], [], [], [], []], l.Nodup) _ hm

/-- C3.  No duplicate syscall ids: under either ABI variant, no two rules of
the whitelist carry the same syscall id. -/
theorem catalog_no_duplicate_ids (ec : ExternConsts) :
    ((syscall_whitelist .gnu ec).map BpfRule.syscall).Nodup ∧
    ((syscall_whitelist .musl ec).map BpfRule.syscall).Nodup := by
  constructor
  · rw [whitelist_ids_gnu]
    decide
  · rw [whitelist_ids_musl]
    decide

/-- C4.  ABI-variant resolution at catalog-build time: the musl whitelist
carries rules for epoll_pwait, tkill, stat and clone and none for tgkill,
clone3, rt_sigaction, set_robust_list or sched_getaffinity; the gnu whitelist
carries exactly the opposite selection. -/
theorem catalog_abi_resolution (ec : ExternConsts) :
    (SYS_epoll_pwait ∈ (syscall_whitelist .musl ec).map BpfRule.syscall ∧
     SYS_tkill ∈ (syscall_whitelist .musl ec).map BpfRule.syscall ∧
     SYS_stat ∈ (syscall_whitelist .musl ec).map BpfRule.syscall ∧
     SYS_clone ∈ (syscall_whitelist .musl ec).map BpfRule.syscall ∧
     SYS_tgkill ∉ (syscall_whitelist .musl ec).map BpfRule.syscall ∧
     SYS_clone3 ∉ (syscall_whitelist .musl ec).map BpfRule.syscall ∧
     SYS_rt_sigaction ∉ (syscall_whitelist .musl ec).map BpfRule.syscall ∧
     SYS_set_robust_list ∉ (syscall_whitelist .musl ec).map BpfRule.syscall ∧
     SYS_sched_getaffinity ∉ (syscall_whitelist .musl ec).map BpfRule.syscall) ∧
    (SYS_tgkill ∈ (syscall_whitelist .gnu ec).map BpfRule.syscall ∧
     SYS_clone3 ∈ (syscall_whitelist .gnu ec).map BpfRule.syscall ∧
     SYS_rt_sigaction ∈ (syscall_whitelist .gnu ec).map BpfRule.syscall ∧
     SYS_set_robust_list ∈ (syscall_whitelist .gnu ec).map BpfRule.syscall ∧
     SYS_sched_getaffinity ∈ (syscall_whitelist .gnu ec).map BpfRule.syscall ∧
     SYS_epoll_pwait ∉ (syscall_whitelist .gnu ec).map BpfRule.syscall ∧
     SYS_tkill ∉ (syscall_whitelist .gnu ec).map BpfRule.syscall ∧
     SYS_stat ∉ (syscall_whitelist .gnu ec).map BpfRule.syscall ∧
     SYS_clone ∉ (syscall_whitelist .gnu ec).map BpfRule.syscall) := by
  rw [whitelist_ids_gnu ec, whitelist_ids_musl ec]
  decide

/-- C5.  Whitelist sizes: 61 rules under the gnu ABI variant and 60 under
musl, matching the counts announced in the catalog's documentation. -/
theorem catalog_sizes (ec : ExternConsts) :
    (syscall_whitelist .gnu ec).length = 61 ∧
    (syscall_whitelist .musl ec).length = 60 :=
  ⟨rfl, rfl⟩

/-- C6.  Size-ceiling enforcement: a policy whose instruction budget exceeds
the kernel ceiling fails compilation with an error carrying the concrete
count and the ceiling, and a successful compilation never truncates — the
program has one block per rule and the budget is within the ceiling. -/
theorem compile_size_ceiling (p : List BpfRule) :
    (BPF_MAXINSNS < policyInstrCount p →
      compile p = .error (.PolicyTooLarge (policyInstrCount p) BPF_MAXINSNS)) ∧
    (∀ prog, compile p = .ok prog →
      prog.blocks = p.map BpfRule.toBlock ∧
      policyInstrCount p ≤ BPF_MAXINSNS) := by
  constructor
  · intro hover
    unfold compile
    rw [if_neg (by omega)]
  · intro prog hok
    unfold compile at hok
    split at hok
    · cases hok
      exact ⟨rfl, by assumption⟩
    · cases hok

/-- A concrete oversized policy: one rule with 4096 OR-alternatives. -/
def oversizedPolicy : List BpfRule :=
  [⟨0, [(1, List.replicate 4096 (.Eq, 0))]⟩]

theorem oversizedPolicy_count : policyInstrCount oversizedPolicy = 4103 := by
  unfold policyInstrCount oversizedPolicy ruleInstrCount
  simp only [List.map_cons, List.map_nil, List.sum_cons, List.sum_nil,
    List.length_replicate]
  norm_num

/-- Witness for C6 at a concrete oversized policy: a single rule with 4096
OR-alternatives exceeds the ceiling and compilation reports the counts. -/
theorem compile_size_ceiling_witness :
    BPF_MAXINSNS < policyInstrCount oversizedPolicy ∧
    compile oversizedPolicy =
      .error (.PolicyTooLarge (policyInstrCount oversizedPolicy)
        BPF_MAXINSNS) := by
  have hover : BPF_MAXINSNS < policyInstrCount oversizedPolicy := by
    rw [oversizedPolicy_count]
    decide
  exact ⟨hover, (compile_size_ceiling oversizedPolicy).1 hover⟩

/-- C7.  Determinism: compilation and catalog construction are pure functions
of their inputs — compiling one policy twice yields instruction-for-
instruction identical programs, and building the whitelist twice for one ABI
variant yields equal rule lists. -/
theorem compile_deterministic :
    (∀ p : List BpfRule, compile p = compile p) ∧
    (∀ (env : TargetEnv) (ec : ExternConsts),
      syscall_whitelist env ec = syscall_whitelist env ec) :=
  ⟨fun _ => rfl, fun _ _ => rfl⟩

/-! ## Duplicate OR-alternatives are semantically inert (for C8) -/

/-- Pointwise equivalence of group lists: the same index skeleton, and each
aligned pair of groups holds the same set of OR-alternatives. -/
def GroupsEquiv : List ConstraintGroup → List ConstraintGroup → Prop :=
  List.Forall₂ fun g₁ g₂ => g₁.1 = g₂.1 ∧ ∀ cv, cv ∈ g₁.2 ↔ cv ∈ g₂.2

/-- Two rules with the same syscall id and equivalent groups. -/
def RuleEquiv (r₁ r₂ : BpfRule) : Prop :=
  r₁.syscall = r₂.syscall ∧ GroupsEquiv r₁.groups r₂.groups

theorem groupsEquiv_refl (gs : List ConstraintGroup) : GroupsEquiv gs gs := by
  induction gs with
  | nil => exact List.Forall₂.nil
  | cons g rest ih => exact List.Forall₂.cons ⟨rfl, fun cv => Iff.rfl⟩ ih

theorem ruleEquiv_refl (r : BpfRule) : RuleEquiv r r :=
  ⟨rfl, groupsEquiv_refl r.groups⟩

theorem addToGroups_equiv {gs₁ gs₂ : List ConstraintGroup}
    (cmp : SeccompCmpOpt) (idx v : Nat) (h : GroupsEquiv gs₁ gs₂) :
    GroupsEquiv (addToGroups cmp idx v gs₁) (addToGroups cmp idx v gs₂) := by
  induction h with
  | nil =>
      exact List.Forall₂.cons ⟨rfl, fun cv => Iff.rfl⟩ List.Forall₂.nil
  | cons hg hrest ih =>
      rename_i g₁ g₂ l₁ l₂
      obtain ⟨i₁, cs₁⟩ := g₁
      obtain ⟨i₂, cs₂⟩ := g₂
      obtain ⟨hi, hmem⟩ := hg
      simp only at hi
      subst hi
      by_cases hidx : i₁ = idx
      · simp only [addToGroups, if_pos hidx]
        refine List.Forall₂.cons ⟨rfl, fun cv => ?_⟩ hrest
        simp only [List.mem_append, List.mem_singleton]
        exact or_congr (hmem cv) Iff.rfl
      · simp only [addToGroups, if_neg hidx]
        exact List.Forall₂.cons ⟨rfl, hmem⟩ ih

theorem RuleEquiv.add {r₁ r₂ : BpfRule} (cmp : SeccompCmpOpt) (idx v : Nat)
    (h : RuleEquiv r₁ r₂) :
    RuleEquiv (r₁.add_constraint cmp idx v) (r₂.add_constraint cmp idx v) :=
  ⟨h.1, addToGroups_equiv cmp idx v h.2⟩

/-- The first group carrying the argument index `idx` already contains the
alternative `cv` (groups before it carry other indices). -/
inductive FirstHas (idx : Nat) (cv : SeccompCmpOpt × Nat) :
    List ConstraintGroup → Prop
  | head (cs : List (SeccompCmpOpt × Nat)) (rest : List ConstraintGroup) :
      cv ∈ cs → FirstHas idx cv ((idx, cs) :: rest)
  | tail (i : Nat) (cs : List (SeccompCmpOpt × Nat))
      (rest : List ConstraintGroup) :
      i ≠ idx → FirstHas idx cv rest → FirstHas idx cv ((i, cs) :: rest)

theorem firstHas_addToGroups (cmp : SeccompCmpOpt) (idx v : Nat)
    (gs : List ConstraintGroup) :
    FirstHas idx (cmp, v) (addToGroups cmp idx v gs) := by
  induction gs with
  | nil =>
      exact FirstHas.head _ _ (List.mem_singleton.mpr rfl)
  | cons g rest ih =>
      obtain ⟨i, cs⟩ := g
      by_cases hi : i = idx
      · subst hi
        simp only [addToGroups, if_pos rfl]
        exact FirstHas.head _ _ (List.mem_append_right _
          (List.mem_singleton.mpr rfl))
      · simp only [addToGroups, if_neg hi]
        exact FirstHas.tail _ _ _ hi ih

theorem firstHas_mono {idx : Nat} {cv : SeccompCmpOpt × Nat}
    {gs : List ConstraintGroup} (cmp2 : SeccompCmpOpt) (j w : Nat)
    (h : FirstHas idx cv gs) :
    FirstHas idx cv (addToGroups cmp2 j w gs) := by
  induction h with
  | head cs rest hmem =>
      by_cases hj : idx = j
      · simp only [addToGroups, if_pos hj]
        exact FirstHas.head _ _ (List.mem_append_left _ hmem)
      · simp only [addToGroups, if_neg hj]
        exact FirstHas.head _ _ hmem
  | tail i cs rest hne hrest ih =>
      by_cases hj : i = j
      · simp only [addToGroups, if_pos hj]
        exact FirstHas.tail _ _ _ hne hrest
      · simp only [addToGroups, if_neg hj]
        exact FirstHas.tail _ _ _ hne ih

theorem firstHas_add {idx : Nat} {cv : SeccompCmpOpt × Nat} {r : BpfRule}
    (cmp2 : SeccompCmpOpt) (j w : Nat) (h : FirstHas idx cv r.groups) :
    FirstHas idx cv ((r.add_constraint cmp2 j w).groups) :=
  firstHas_mono cmp2 j w h

theorem firstHas_add_base {r : BpfRule} (cmp : SeccompCmpOpt) (idx v : Nat) :
    FirstHas idx (cmp, v) ((r.add_constraint cmp idx v).groups) :=
  firstHas_addToGroups cmp idx v r.groups

theorem addToGroups_absorb {gs₁ gs₂ : List ConstraintGroup}
    {cmp : SeccompCmpOpt} {idx v : Nat} (h : GroupsEquiv gs₁ gs₂)
    (hf : FirstHas idx (cmp, v) gs₁) :
    GroupsEquiv (addToGroups cmp idx v gs₁) gs₂ := by
  induction h with
  | nil => cases hf
  | cons hg hrest ih =>
      rename_i g₁ g₂ l₁ l₂
      obtain ⟨i₁, cs₁⟩ := g₁
      obtain ⟨i₂, cs₂⟩ := g₂
      obtain ⟨hi, hmem⟩ := hg
      simp only at hi
      subst hi
      cases hf with
      | head _ _ hin =>
          simp only [addToGroups, if_pos rfl]
          refine List.Forall₂.cons ⟨rfl, fun cv => ?_⟩ hrest
          simp only [List.mem_append, List.mem_singleton]
          constructor
          · rintro (hx | rfl)
            · exact (hmem cv).1 hx
            · exact (hmem _).1 hin
          · intro hx
            exact Or.inl ((hmem cv).2 hx)
      | tail _ _ _ hne hrest2 =>
          simp only [addToGroups, if_neg hne]
          exact List.Forall₂.cons ⟨rfl, hmem⟩ (ih hrest2)

theorem RuleEquiv.add_absorb {r₁ r₂ : BpfRule} {cmp : SeccompCmpOpt}
    {idx v : Nat} (h : RuleEquiv r₁ r₂)
    (hf : FirstHas idx (cmp, v) r₁.groups) :
    RuleEquiv (r₁.add_constraint cmp idx v) r₂ :=
  ⟨h.1, addToGroups_absorb h.2 hf⟩

theorem groupSat_congr (d : CallDesc) (g₁ g₂ : ConstraintGroup)
    (h : g₁.1 = g₂.1 ∧ ∀ cv, cv ∈ g₁.2 ↔ cv ∈ g₂.2) :
    groupSat d g₁ = groupSat d g₂ := by
  obtain ⟨h1, h2⟩ := h
  unfold groupSat
  rw [h1]
  apply Bool.eq_iff_iff.mpr
  simp only [List.any_eq_true]
  constructor
  · rintro ⟨cv, hcv, hsat⟩
    exact ⟨cv, (h2 cv).1 hcv, hsat⟩
  · rintro ⟨cv, hcv, hsat⟩
    exact ⟨cv, (h2 cv).2 hcv, hsat⟩

theorem groupsEquiv_all (d : CallDesc) {l₁ l₂ : List ConstraintGroup}
    (h : GroupsEquiv l₁ l₂) :
    l₁.all (groupSat d) = l₂.all (groupSat d) := by
  induction h with
  | nil => rfl
  | cons h₁ h₂ ih =>
      simp only [List.all_cons]
      rw [groupSat_congr d _ _ h₁, ih]

theorem ruleEquiv_allows {r₁ r₂ : BpfRule} (h : RuleEquiv r₁ r₂)
    (d : CallDesc) : r₁.allows d = r₂.allows d := by
  obtain ⟨hs, hg⟩ := h
  unfold BpfRule.allows
  rw [hs, groupsEquiv_all d hg]

/-- Proof-side decomposition of the ioctl chain: the adds up to and including
`VHOST_NET_SET_BACKEND` (everything before the duplicated
`VHOST_GET_FEATURES` call). -/
def ioctlSeg1 (ec : ExternConsts) : BpfRule :=
  (BpfRule.new SYS_ioctl).add_constraint .Eq 1 TCGETS
    |>.add_constraint .Eq 1 TCSETS
    |>.add_constraint .Eq 1 TIOCGWINSZ
    |>.add_constraint .Eq 1 FIOCLEX
    |>.add_constraint .Eq 1 FIONBIO
    |>.add_constraint .Eq 1 KVM_RUN
    |>.add_constraint .Eq 1 ec.KVM_SET_DEVICE_ATTR
    |>.add_constraint .Eq 1 ec.KVM_SET_USER_MEMORY_REGION
    |>.add_constraint .Eq 1 ec.KVM_IOEVENTFD
    |>.add_constraint .Eq 1 ec.KVM_SIGNAL_MSI
    |>.add_constraint .Eq 1 (asU32 ec.VHOST_VSOCK_SET_GUEST_CID)
    |>.add_constraint .Eq 1 (asU32 ec.VHOST_VSOCK_SET_RUNNING)
    |>.add_constraint .Eq 1 (asU32 ec.VHOST_SET_VRING_CALL)
    |>.add_constraint .Eq 1 (asU32 ec.VHOST_SET_VRING_NUM)
    |>.add_constraint .Eq 1 (asU32 ec.VHOST_GET_VRING_BASE)
    |>.add_constraint .Eq 1 (asU32 ec.VHOST_SET_VRING_ADDR)
    |>.add_constraint .Eq 1 (asU32 ec.VHOST_SET_VRING_BASE)
    |>.add_constraint .Eq 1 (asU32 ec.VHOST_SET_VRING_KICK)
    |>.add_constraint .Eq 1 (asU32 ec.VHOST_SET_OWNER)
    |>.add_constraint .Eq 1 (asU32 ec.VHOST_SET_FEATURES)
    |>.add_constraint .Eq 1 (asU32 ec.VHOST_GET_FEATURES)
    |>.add_constraint .Eq 1 (asU32 ec.VHOST_SET_MEM_TABLE)
    |>.add_constraint .Eq 1 (asU32 ec.VHOST_NET_SET_BACKEND)

/-- Proof-side decomposition of the ioctl chain: the adds strictly between
the duplicated `VHOST_GET_FEATURES` call and the duplicated `KVM_GET_SREGS`
call, applied to an arbitrary prefix. -/
def ioctlSeg2 (r : BpfRule) (ec : ExternConsts) : BpfRule :=
  r.add_constraint .Eq 1 (asU32 ec.VHOST_RESET_OWNER)
    |>.add_constraint .Eq 1 (asU32 ec.TUNGETFEATURES)
    |>.add_constraint .Eq 1 (asU32 ec.TUNSETIFF)
    |>.add_constraint .Eq 1 (asU32 ec.TUNSETOFFLOAD)
    |>.add_constraint .Eq 1 (asU32 ec.TUNSETVNETHDRSZ)
    |>.add_constraint .Eq 1 (asU32 ec.KVM_SET_GSI_ROUTING)
    |>.add_constraint .Eq 1 (asU32 ec.KVM_IRQFD)
    |>.add_constraint .Eq 1 (asU32 ec.VFIO_DEVICE_SET_IRQS)
    |>.add_constraint .Eq 1 (asU32 ec.VFIO_GROUP_GET_STATUS)
    |>.add_constraint .Eq 1 (asU32 ec.VFIO_GET_API_VERSION)
    |>.add_constraint .Eq 1 (asU32 ec.VFIO_CHECK_EXTENSION)
    |>.add_constraint .Eq 1 (asU32 ec.VFIO_GROUP_SET_CONTAINER)
    |>.add_constraint .Eq 1 (asU32 ec.VFIO_SET_IOMMU)
    |>.add_constraint .Eq 1 (asU32 ec.KVM_CREATE_DEVICE)
    |>.add_constraint .Eq 1 (asU32 ec.VFIO_IOMMU_MAP_DMA)
    |>.add_constraint .Eq 1 (asU32 ec.VFIO_IOMMU_UNMAP_DMA)
    |>.add_constraint .Eq 1 (asU32 ec.VFIO_GROUP_GET_DEVICE_FD)
    |>.add_constraint .Eq 1 (asU32 ec.VFIO_DEVICE_GET_INFO)
    |>.add_constraint .Eq 1 (asU32 ec.VFIO_DEVICE_RESET)
    |>.add_constraint .Eq 1 (asU32 ec.VFIO_DEVICE_GET_REGION_INFO)
    |>.add_constraint .Eq 1 (asU32 ec.VFIO_DEVICE_GET_IRQ_INFO)
    |>.add_constraint .Eq 1 (asU32 ec.KVM_GET_API_VERSION)
    |>.add_constraint .Eq 1 (asU32 ec.KVM_GET_MP_STATE)
    |>.add_constraint .Eq 1 (asU32 ec.KVM_GET_VCPU_EVENTS)
    |>.add_constraint .Eq 1 (asU32 ec.KVM_GET_PIT2)
    |>.add_constraint .Eq 1 (asU32 ec.KVM_GET_CLOCK)
    |>.add_constraint .Eq 1 (asU32 ec.KVM_GET_IRQCHIP)
    |>.add_constraint .Eq 1 (asU32 ec.KVM_GET_REGS)
    |>.add_constraint .Eq 1 (asU32 ec.KVM_GET_SREGS)
    |>.add_constraint .Eq 1 (asU32 ec.KVM_GET_XSAVE)

/-- Proof-side decomposition of the ioctl chain: the adds after the
duplicated `KVM_GET_SREGS` call, applied to an arbitrary prefix. -/
def ioctlSeg3 (r : BpfRule) (ec : ExternConsts) : BpfRule :=
  r.add_constraint .Eq 1 (asU32 ec.KVM_GET_DEBUGREGS)
    |>.add_constraint .Eq 1 (asU32 ec.KVM_GET_XCRS)
    |>.add_constraint .Eq 1 (asU32 ec.KVM_GET_LAPIC)
    |>.add_constraint .Eq 1 (asU32 ec.KVM_GET_MSRS)
    |>.add_constraint .Eq 1 (asU32 ec.KVM_GET_SUPPORTED_CPUID)
    |>.add_constraint .Eq 1 (asU32 ec.KVM_SET_CPUID2)
    |>.add_constraint .Eq 1 (asU32 ec.KVM_SET_MP_STATE)
    |>.add_constraint .Eq 1 (asU32 ec.KVM_SET_SREGS)
    |>.add_constraint .Eq 1 (asU32 ec.KVM_SET_REGS)
    |>.add_constraint .Eq 1 (asU32 ec.KVM_SET_XSAVE)
    |>.add_constraint .Eq 1 (asU32 ec.KVM_SET_XCRS)
    |>.add_constraint .Eq 1 (asU32 ec.KVM_SET_DEBUGREGS)
    |>.add_constraint .Eq 1 (asU32 ec.KVM_SET_LAPIC)
    |>.add_constraint .Eq 1 (asU32 ec.KVM_SET_MSRS)
    |>.add_constraint .Eq 1 (asU32 ec.KVM_SET_VCPU_EVENTS)
    |>.add_constraint .Eq 1 (asU32 ec.KVM_GET_DIRTY_LOG)

theorem ioctl_decomp (ec : ExternConsts) :
    ioctl_allow_list ec =
    ioctlSeg3
      ((ioctlSeg2
        ((ioctlSeg1 ec).add_constraint .Eq 1 (asU32 ec.VHOST_GET_FEATURES))
        ec).add_constraint .Eq 1 (asU32 ec.KVM_GET_SREGS))
      ec := rfl

theorem ioctl_dedup_decomp (ec : ExternConsts) :
    ioctl_allow_list_dedup ec = ioctlSeg3 (ioctlSeg2 (ioctlSeg1 ec) ec) ec :=
  rfl

theorem ioctlSeg2_equiv {r₁ r₂ : BpfRule} (ec : ExternConsts)
    (h : RuleEquiv r₁ r₂) :
    RuleEquiv (ioctlSeg2 r₁ ec) (ioctlSeg2 r₂ ec) := by
  unfold ioctlSeg2
  iterate 30 apply RuleEquiv.add
  exact h

theorem ioctlSeg3_equiv {r₁ r₂ : BpfRule} (ec : ExternConsts)
    (h : RuleEquiv r₁ r₂) :
    RuleEquiv (ioctlSeg3 r₁ ec) (ioctlSeg3 r₂ ec) := by
  unfold ioctlSeg3
  iterate 16 apply RuleEquiv.add
  exact h

theorem ioctlSeg1_firstHas (ec : ExternConsts) :
    FirstHas 1 (.Eq, asU32 ec.VHOST_GET_FEATURES) (ioctlSeg1 ec).groups := by
  unfold ioctlSeg1
  apply firstHas_add
  apply firstHas_add
  exact firstHas_add_base .Eq 1 (asU32 ec.VHOST_GET_FEATURES)

theorem ioctlSeg2_firstHas (r : BpfRule) (ec : ExternConsts) :
    FirstHas 1 (.Eq, asU32 ec.KVM_GET_SREGS) (ioctlSeg2 r ec).groups := by
  unfold ioctlSeg2
  apply firstHas_add
  exact firstHas_add_base .Eq 1 (asU32 ec.KVM_GET_SREGS)


/-- C8.  The two duplicated `add_constraint` calls of the ioctl rule (the
second `VHOST_GET_FEATURES` and the second `KVM_GET_SREGS`) are idempotent
with respect to the rule's meaning: on every call descriptor — every
(syscall, argument-1) input — the catalog's ioctl rule accepts exactly when
the same rule with the duplicate calls removed accepts. -/
theorem ioctl_duplicate_adds_idempotent (ec : ExternConsts) (d : CallDesc) :
    (ioctl_allow_list ec).allows d = (ioctl_allow_list_dedup ec).allows d := by
  apply ruleEquiv_allows
  rw [ioctl_decomp, ioctl_dedup_decomp]
  apply ioctlSeg3_equiv
  apply RuleEquiv.add_absorb
  · apply ioctlSeg2_equiv
    apply RuleEquiv.add_absorb
    · exact ruleEquiv_refl _
    · exact ioctlSeg1_firstHas ec
  · exact ioctlSeg2_firstHas _ ec

/-! ## VM configuration, embedded from
`machine_manager/src/config/machine_config.rs` -/

/-- Rust strings are embedded as lists of characters. -/
abbrev Str := List Char

def DEFAULT_CPUS : Nat := 1
def DEFAULT_MEMSIZE : Nat := 256
def MAX_NR_CPUS : Nat := 254
def MIN_NR_CPUS : Nat := 1
def MAX_MEMSIZE : Nat := 549755813888
def MIN_MEMSIZE : Nat := 268435456
def M : Nat := 1024 * 1024
def G : Nat := 1024 * 1024 * 1024

/-- One more than the largest u64, the wrap-around bound of `checked_mul`. -/
def U64MOD : Nat := 2 ^ 64

/-- The error variants of `machine_manager::config::errors::ErrorKind`
reached from the embedded functions (that module is outside the provided
sources; message-only `bail!` errors are folded into `Msg`). -/
inductive ErrorKind
  | ConvertValueFailed (origin target : Str)
  | IntegerOverflow (item : Str)
  | IllegalValue (item : Str) (min : Nat) (minIncl : Bool) (max : Nat)
      (maxIncl : Bool)
  | FieldIsMissing (field parent : Str)
  | Msg (msg : Str)
deriving DecidableEq

/-- Rust `str::ends_with(char)`. -/
def endsWith : Str → Char → Bool
  | [], _ => false
  | [x], c => x == c
  | _ :: y :: xs, c => endsWith (y :: xs) c

/-- Rust `str::contains(char)`. -/
def containsC : Str → Char → Bool
  | [], _ => false
  | x :: xs, c => x == c || containsC xs c

/-- Rust `str::replacen(char, emptystring, 1)`: drop the first occurrence. -/
def removeFirst (c : Char) : Str → Str
  | [] => []
  | x :: xs => if x = c then xs else x :: removeFirst c xs

/-- Numeric value of a digit string. -/
def digitsVal (s : Str) : Nat :=
  s.foldl (fun a c => a * 10 + (c.toNat - '0'.toNat)) 0

/-- Rust `u64::from_str` accepts one optional leading plus sign. -/
def stripPlus : Str → Str
  | [] => []
  | c :: rest => if c = '+' then rest else c :: rest

/-- Rust `str::parse::<u64>()`: an optional plus sign, then one or more
ascii digits, value at most the largest u64. -/
def parseU64 (s : Str) : Option Nat :=
  if stripPlus s ≠ [] ∧ (stripPlus s).all Char.isDigit then
    (if digitsVal (stripPlus s) < U64MOD then some (digitsVal (stripPlus s))
     else none)
  else none

/-- Rust `u64::checked_mul`. -/
def checked_mul (a b : Nat) : Option Nat :=
  if a * b < U64MOD then some (a * b) else none

/-- Embeds `get_inner` of `machine_config.rs`. -/
def get_inner (outer : Option Nat) : Except ErrorKind Nat :=
  match outer with
  | some x => .ok x
  | none => .error (.IntegerOverflow "-m".toList)

/-- Embeds `memory_unit_conversion` of `machine_config.rs`. -/
def memory_unit_conversion (origin_value : Str) : Except ErrorKind Nat :=
  if (endsWith origin_value 'M' || endsWith origin_value 'm')
      && (Bool.xor (containsC origin_value 'M')
            (containsC origin_value 'm')) then
    match parseU64 (removeFirst 'm' (removeFirst 'M' origin_value)) with
    | none => .error (.ConvertValueFailed origin_value "u64".toList)
    | some n => get_inner (checked_mul n M)
  else if (endsWith origin_value 'G' || endsWith origin_value 'g')
      && (Bool.xor (containsC origin_value 'G')
            (containsC origin_value 'g')) then
    match parseU64 (removeFirst 'g' (removeFirst 'G' origin_value)) with
    | none => .error (.ConvertValueFailed origin_value "u64".toList)
    | some n => get_inner (checked_mul n G)
  else
    match parseU64 origin_value with
    | none => .error (.ConvertValueFailed origin_value "u64".toList)
    | some size => get_inner (checked_mul size M)

/-! ### String lemmas -/

theorem endsWith_concat (l : Str) (a c : Char) :
    endsWith (l ++ [a]) c = (a == c) := by
  induction l with
  | nil => rfl
  | cons x xs ih =>
      cases xs with
      | nil => rfl
      | cons y ys => simpa [endsWith, List.cons_append] using ih

theorem endsWith_mem {l : Str} {c : Char} (h : endsWith l c = true) :
    c ∈ l := by
  induction l with
  | nil => cases h
  | cons x xs ih =>
      cases xs with
      | nil =>
          simp only [endsWith, beq_iff_eq] at h
          simp [h]
      | cons y ys =>
          exact List.mem_cons_of_mem _ (ih (by simpa [endsWith] using h))

theorem endsWith_append {l₁ l₂ : Str} (h : l₂ ≠ []) (c : Char) :
    endsWith (l₁ ++ l₂) c = endsWith l₂ c := by
  induction l₁ with
  | nil => rfl
  | cons x xs ih =>
      have hx : xs ++ l₂ ≠ [] := by
        intro hnil
        exact h (List.append_eq_nil.mp hnil).2
      rcases hq : xs ++ l₂ with _ | ⟨y, ys⟩
      · exact absurd hq hx
      · calc endsWith (x :: xs ++ l₂) c
            = endsWith (xs ++ l₂) c := by
              rw [List.cons_append, hq]
              simp [endsWith]
          _ = endsWith l₂ c := ih

theorem containsC_iff {l : Str} {c : Char} : containsC l c = true ↔ c ∈ l := by
  induction l with
  | nil => simp [containsC]
  | cons x xs ih =>
      simp only [containsC, Bool.or_eq_true, beq_iff_eq, List.mem_cons, ih]
      constructor
      · rintro (rfl | hx)
        · exact Or.inl rfl
        · exact Or.inr hx
      · rintro (rfl | hx)
        · exact Or.inl rfl
        · exact Or.inr hx

theorem containsC_false_iff {l : Str} {c : Char} :
    containsC l c = false ↔ c ∉ l := by
  constructor
  · intro h hmem
    rw [containsC_iff.mpr hmem] at h
    cases h
  · intro h
    cases hb : containsC l c
    · rfl
    · exact absurd (containsC_iff.mp hb) h

theorem containsC_append (l₁ l₂ : Str) (c : Char) :
    containsC (l₁ ++ l₂) c = (containsC l₁ c || containsC l₂ c) := by
  induction l₁ with
  | nil => simp [containsC]
  | cons x xs ih => simp [containsC, ih, Bool.or_assoc]

theorem removeFirst_of_not_mem {c : Char} {l : Str} (h : c ∉ l) :
    removeFirst c l = l := by
  induction l with
  | nil => rfl
  | cons x xs ih =>
      have hx : x ≠ c := by
        intro hxc
        exact h (hxc ▸ List.mem_cons_self x xs)
      simp only [removeFirst, if_neg hx]
      rw [ih (fun hm => h (List.mem_cons_of_mem _ hm))]

theorem removeFirst_concat_self {c : Char} {l : Str} (h : c ∉ l) :
    removeFirst c (l ++ [c]) = l := by
  induction l with
  | nil => simp [removeFirst]
  | cons x xs ih =>
      have hx : x ≠ c := by
        intro hxc
        exact h (hxc ▸ List.mem_cons_self x xs)
      simp only [List.cons_append, removeFirst, if_neg hx]
      rw [show xs.append [c] = xs ++ [c] from rfl,
        ih (fun hm => h (List.mem_cons_of_mem _ hm))]

theorem mem_removeFirst {x c : Char} {l : Str}
    (h : x ∈ removeFirst c l) : x ∈ l := by
  induction l with
  | nil => cases h
  | cons y ys ih =>
      by_cases hy : y = c
      · simp only [removeFirst, if_pos hy] at h
        exact List.mem_cons_of_mem _ h
      · simp only [removeFirst, if_neg hy, List.mem_cons] at h
        rcases h with rfl | h
        · exact List.mem_cons_self _ _
        · exact List.mem_cons_of_mem _ (ih h)

theorem filter_length_removeFirst (p : Char → Bool) (c : Char) (l : Str) :
    (l.filter p).length ≤ ((removeFirst c l).filter p).length + 1 := by
  induction l with
  | nil => simp
  | cons x xs ih =>
      by_cases hx : x = c
      · simp only [removeFirst, if_pos hx]
        cases hp : p x <;> simp [List.filter_cons, hp]
      · simp only [removeFirst, if_neg hx]
        cases hp : p x <;> simp [List.filter_cons, hp] <;> omega

theorem exists_of_filter_pos {p : Char → Bool} {l : Str}
    (h : 1 ≤ (l.filter p).length) : ∃ x ∈ l, p x = true := by
  rcases hq : l.filter p with _ | ⟨x, xs⟩
  · rw [hq] at h
    cases h
  · have hx : x ∈ l.filter p := by
      rw [hq]
      exact List.mem_cons_self _ _
    obtain ⟨hmem, hp⟩ := List.mem_filter.mp hx
    exact ⟨x, hmem, hp⟩

theorem filter_pos_of_mem {p : Char → Bool} {l : Str} {x : Char}
    (hx : x ∈ l) (hp : p x = true) : 1 ≤ (l.filter p).length := by
  have : x ∈ l.filter p := List.mem_filter.mpr ⟨hx, hp⟩
  exact List.length_pos.mpr (List.ne_nil_of_mem this)

/-! ### Unit-letter and parse lemmas -/

/-- The four memory-unit letters recognized by `memory_unit_conversion`. -/
def isUnitChar (c : Char) : Bool :=
  c == 'M' || c == 'm' || c == 'G' || c == 'g'

theorem unit_eq {u : Char} (h : isUnitChar u = true) :
    u = 'M' ∨ u = 'm' ∨ u = 'G' ∨ u = 'g' := by
  simpa [isUnitChar, or_assoc] using h

theorem unit_not_digit {u : Char} (h : isUnitChar u = true) :
    u.isDigit = false := by
  rcases unit_eq h with rfl | rfl | rfl | rfl <;> decide

theorem unit_ne_plus {u : Char} (h : isUnitChar u = true) : u ≠ '+' := by
  rcases unit_eq h with rfl | rfl | rfl | rfl <;> decide

theorem stripPlus_digits {n : Str} (h2 : ∀ c ∈ n, c.isDigit = true) :
    stripPlus n = n := by
  cases n with
  | nil => rfl
  | cons c rest =>
      have hc : c ≠ '+' := by
        intro hcp
        have := h2 c (List.mem_cons_self c rest)
        rw [hcp] at this
        exact absurd this (by decide)
      simp only [stripPlus, if_neg hc]

theorem parseU64_digits {n : Str} (h1 : n ≠ [])
    (h2 : ∀ c ∈ n, c.isDigit = true) (h3 : digitsVal n < U64MOD) :
    parseU64 n = some (digitsVal n) := by
  unfold parseU64
  rw [stripPlus_digits h2]
  rw [if_pos ⟨h1, List.all_eq_true.mpr h2⟩, if_pos h3]

theorem parseU64_digits_none {n : Str}
    (h2 : ∀ c ∈ n, c.isDigit = true) (h3 : ¬ digitsVal n < U64MOD) :
    parseU64 n = none := by
  unfold parseU64
  rw [stripPlus_digits h2]
  by_cases h1 : n = []
  · subst h1
    rfl
  · rw [if_pos ⟨h1, List.all_eq_true.mpr h2⟩, if_neg h3]

theorem parseU64_none_unit {s : Str} {c : Char} (hc : c ∈ s)
    (hcu : isUnitChar c = true) : parseU64 s = none := by
  have hcd : c.isDigit = false := unit_not_digit hcu
  have hcp : c ≠ '+' := unit_ne_plus hcu
  have hcs : c ∈ stripPlus s := by
    cases s with
    | nil => cases hc
    | cons x rest =>
        by_cases hx : x = '+'
        · simp only [stripPlus, if_pos hx]
          rcases List.mem_cons.mp hc with rfl | hmem
          · exact absurd hx hcp
          · exact hmem
        · simp only [stripPlus, if_neg hx]
          exact hc
  unfold parseU64
  rw [if_neg]
  rintro ⟨-, hall⟩
  have := List.all_eq_true.mp hall c hcs
  rw [hcd] at this
  cases this

/-! ### Branch-shape lemmas for `memory_unit_conversion` -/

theorem unitFree_not_mem {n : Str} (h2 : ∀ c ∈ n, isUnitChar c = false)
    {u : Char} (hu : isUnitChar u = true) : u ∉ n := by
  intro hmem
  rw [h2 u hmem] at hu
  cases hu

theorem endsWith_false_of_unitFree {n : Str}
    (h2 : ∀ c ∈ n, isUnitChar c = false) {c : Char}
    (hc : isUnitChar c = true) : endsWith n c = false := by
  cases hb : endsWith n c
  · rfl
  · exact absurd (endsWith_mem hb) (unitFree_not_mem h2 hc)

theorem digits_unitFree {n : Str} (h2 : ∀ c ∈ n, c.isDigit = true) :
    ∀ c ∈ n, isUnitChar c = false := by
  intro c hc
  cases hb : isUnitChar c
  · rfl
  · have := h2 c hc
    rw [unit_not_digit hb] at this
    cases this

/-- The M-branch shape on a digit string with an `M` appended. -/
theorem conv_concat_M {n : Str} (h2 : ∀ c ∈ n, isUnitChar c = false) :
    memory_unit_conversion (n ++ ['M']) =
      (match parseU64 n with
       | none => .error (.ConvertValueFailed (n ++ ['M']) "u64".toList)
       | some v => get_inner (checked_mul v M)) := by
  have hnM : 'M' ∉ n := unitFree_not_mem h2 (by decide)
  have hnm : 'm' ∉ n := unitFree_not_mem h2 (by decide)
  have hcond : ((endsWith (n ++ ['M']) 'M' || endsWith (n ++ ['M']) 'm')
      && Bool.xor (containsC (n ++ ['M']) 'M')
           (containsC (n ++ ['M']) 'm')) = true := by
    rw [endsWith_concat, containsC_append, containsC_append,
      containsC_false_iff.mpr hnM, containsC_false_iff.mpr hnm]
    rfl
  unfold memory_unit_conversion
  rw [if_pos hcond, removeFirst_concat_self hnM,
    removeFirst_of_not_mem hnm]

/-- The M-branch shape on a digit string with an `m` appended. -/
theorem conv_concat_m {n : Str} (h2 : ∀ c ∈ n, isUnitChar c = false) :
    memory_unit_conversion (n ++ ['m']) =
      (match parseU64 n with
       | none => .error (.ConvertValueFailed (n ++ ['m']) "u64".toList)
       | some v => get_inner (checked_mul v M)) := by
  have hnM : 'M' ∉ n := unitFree_not_mem h2 (by decide)
  have hnm : 'm' ∉ n := unitFree_not_mem h2 (by decide)
  have hnM2 : 'M' ∉ n ++ ['m'] := by
    intro hm
    rcases List.mem_append.mp hm with hm | hm
    · exact hnM hm
    · simp at hm
  have hcond : ((endsWith (n ++ ['m']) 'M' || endsWith (n ++ ['m']) 'm')
      && Bool.xor (containsC (n ++ ['m']) 'M')
           (containsC (n ++ ['m']) 'm')) = true := by
    rw [endsWith_concat, endsWith_concat, containsC_append, containsC_append,
      containsC_false_iff.mpr hnM, containsC_false_iff.mpr hnm]
    rfl
  unfold memory_unit_conversion
  rw [if_pos hcond, removeFirst_of_not_mem hnM2, removeFirst_concat_self hnm]

/-- The G-branch shape on a digit string with a `G` appended. -/
theorem conv_concat_G {n : Str} (h2 : ∀ c ∈ n, isUnitChar c = false) :
    memory_unit_conversion (n ++ ['G']) =
      (match parseU64 n with
       | none => .error (.ConvertValueFailed (n ++ ['G']) "u64".toList)
       | some v => get_inner (checked_mul v G)) := by
  have hnG : 'G' ∉ n := unitFree_not_mem h2 (by decide)
  have hng : 'g' ∉ n := unitFree_not_mem h2 (by decide)
  have hcond1 : ((endsWith (n ++ ['G']) 'M' || endsWith (n ++ ['G']) 'm')
      && Bool.xor (containsC (n ++ ['G']) 'M')
           (containsC (n ++ ['G']) 'm')) = false := by
    rw [endsWith_concat, endsWith_concat]
    rfl
  have hcond2 : ((endsWith (n ++ ['G']) 'G' || endsWith (n ++ ['G']) 'g')
      && Bool.xor (containsC (n ++ ['G']) 'G')
           (containsC (n ++ ['G']) 'g')) = true := by
    rw [endsWith_concat, containsC_append, containsC_append,
      containsC_false_iff.mpr hnG, containsC_false_iff.mpr hng]
    rfl
  unfold memory_unit_conversion
  rw [if_neg (by simp [hcond1]), if_pos hcond2, removeFirst_concat_self hnG,
    removeFirst_of_not_mem hng]

/-- The G-branch shape on a digit string with a `g` appended. -/
theorem conv_concat_g {n : Str} (h2 : ∀ c ∈ n, isUnitChar c = false) :
    memory_unit_conversion (n ++ ['g']) =
      (match parseU64 n with
       | none => .error (.ConvertValueFailed (n ++ ['g']) "u64".toList)
       | some v => get_inner (checked_mul v G)) := by
  have hnG : 'G' ∉ n := unitFree_not_mem h2 (by decide)
  have hng : 'g' ∉ n := unitFree_not_mem h2 (by decide)
  have hnG2 : 'G' ∉ n ++ ['g'] := by
    intro hm
    rcases List.mem_append.mp hm with hm | hm
    · exact hnG hm
    · simp at hm
  have hcond1 : ((endsWith (n ++ ['g']) 'M' || endsWith (n ++ ['g']) 'm')
      && Bool.xor (containsC (n ++ ['g']) 'M')
           (containsC (n ++ ['g']) 'm')) = false := by
    rw [endsWith_concat, endsWith_concat]
    rfl
  have hcond2 : ((endsWith (n ++ ['g']) 'G' || endsWith (n ++ ['g']) 'g')
      && Bool.xor (containsC (n ++ ['g']) 'G')
           (containsC (n ++ ['g']) 'g')) = true := by
    rw [endsWith_concat, endsWith_concat, containsC_append, containsC_append,
      containsC_false_iff.mpr hnG, containsC_false_iff.mpr hng]
    rfl
  unfold memory_unit_conversion
  rw [if_neg (by simp [hcond1]), if_pos hcond2,
    removeFirst_of_not_mem hnG2, removeFirst_concat_self hng]

/-- The default-branch shape on a bare digit string: MiB is the default. -/
theorem conv_bare {n : Str} (h2 : ∀ c ∈ n, isUnitChar c = false) :
    memory_unit_conversion n =
      (match parseU64 n with
       | none => .error (.ConvertValueFailed n "u64".toList)
       | some v => get_inner (checked_mul v M)) := by
  have hcond1 : ((endsWith n 'M' || endsWith n 'm')
      && Bool.xor (containsC n 'M') (containsC n 'm')) = false := by
    rw [endsWith_false_of_unitFree h2 (by decide),
      endsWith_false_of_unitFree h2 (by decide)]
    rfl
  have hcond2 : ((endsWith n 'G' || endsWith n 'g')
      && Bool.xor (containsC n 'G') (containsC n 'g')) = false := by
    rw [endsWith_false_of_unitFree h2 (by decide),
      endsWith_false_of_unitFree h2 (by decide)]
    rfl
  unfold memory_unit_conversion
  rw [if_neg (by simp [hcond1]), if_neg (by simp [hcond2])]

/-! ### Error paths of `memory_unit_conversion` -/

/-- A unit letter occurring before the final position, or two unit-letter
occurrences anywhere: the malformed-suffix shapes of the claim. -/
def MisplacedOrRepeated (s : Str) : Prop :=
  (∃ l₁ c l₂, s = l₁ ++ c :: l₂ ∧ isUnitChar c = true ∧ l₂ ≠ []) ∨
  2 ≤ (s.filter isUnitChar).length

theorem match_parse_ok {n : Str} (h1 : n ≠ [])
    (h2 : ∀ c ∈ n, c.isDigit = true) {k : Nat}
    (hk : digitsVal n * k < U64MOD) (hkpos : 0 < k) (o : Str) :
    (match parseU64 n with
     | none => Except.error (ErrorKind.ConvertValueFailed o "u64".toList)
     | some v => get_inner (checked_mul v k)) = .ok (digitsVal n * k) := by
  have hv : digitsVal n < U64MOD :=
    Nat.lt_of_le_of_lt (Nat.le_mul_of_pos_right _ hkpos) hk
  rw [parseU64_digits h1 h2 hv]
  show get_inner (checked_mul (digitsVal n) k) = Except.ok (digitsVal n * k)
  unfold checked_mul
  rw [if_pos hk]
  rfl

theorem match_parse_err {n : Str} (h1 : n ≠ [])
    (h2 : ∀ c ∈ n, c.isDigit = true) {k : Nat}
    (hk : U64MOD ≤ digitsVal n * k) (o : Str) :
    ∃ e, (match parseU64 n with
          | none => Except.error (ErrorKind.ConvertValueFailed o "u64".toList)
          | some v => get_inner (checked_mul v k)) = .error e := by
  by_cases hv : digitsVal n < U64MOD
  · rw [parseU64_digits h1 h2 hv]
    refine ⟨ErrorKind.IntegerOverflow "-m".toList, ?_⟩
    show get_inner (checked_mul (digitsVal n) k) = _
    unfold checked_mul
    rw [if_neg (Nat.not_lt.mpr hk)]
    rfl
  · rw [parseU64_digits_none h2 hv]
    exact ⟨_, rfl⟩

/-- A string without unit letters whose parse fails errors under every unit
suffix and bare. -/
theorem conv_unitfree_err {s : Str} (hUF : ∀ c ∈ s, isUnitChar c = false)
    (hp : parseU64 s = none) :
    (∀ u, isUnitChar u = true →
      ∃ e, memory_unit_conversion (s ++ [u]) = .error e) ∧
    (∃ e, memory_unit_conversion s = .error e) := by
  constructor
  · intro u hu
    rcases unit_eq hu with rfl | rfl | rfl | rfl
    · rw [conv_concat_M hUF, hp]
      exact ⟨_, rfl⟩
    · rw [conv_concat_m hUF, hp]
      exact ⟨_, rfl⟩
    · rw [conv_concat_G hUF, hp]
      exact ⟨_, rfl⟩
    · rw [conv_concat_g hUF, hp]
      exact ⟨_, rfl⟩
  · rw [conv_bare hUF, hp]
    exact ⟨_, rfl⟩

/-- In a malformed string that still ends with a unit letter, there are at
least two unit-letter occurrences. -/
theorem mur_count_two {s : Str} (h : MisplacedOrRepeated s) {u : Char}
    (hu : isUnitChar u = true) (hend : endsWith s u = true) :
    2 ≤ (s.filter isUnitChar).length := by
  rcases h with ⟨l₁, c, l₂, rfl, hc, hl₂⟩ | h2
  · rw [endsWith_append (by simp) u] at hend
    rw [show c :: l₂ = [c] ++ l₂ from rfl, endsWith_append hl₂ u] at hend
    have hmem : u ∈ l₂ := endsWith_mem hend
    have hcu : 1 ≤ (l₂.filter isUnitChar).length := filter_pos_of_mem hmem hu
    rw [List.filter_append, List.length_append, List.filter_cons, if_pos hc]
    simp only [List.length_cons]
    omega
  · exact h2

/-- With at least two unit occurrences and an exclusive-or of the two case
variants holding, the two removals leave a unit letter behind. -/
theorem mur_value_unit {s : Str} (hcount : 2 ≤ (s.filter isUnitChar).length)
    {a b : Char} (hxor : Bool.xor (containsC s a) (containsC s b) = true) :
    ∃ c ∈ removeFirst b (removeFirst a s), isUnitChar c = true := by
  cases hca : containsC s a <;> cases hcb : containsC s b <;>
    rw [hca, hcb] at hxor
  · simp at hxor
  · have hna : a ∉ s := containsC_false_iff.mp hca
    rw [removeFirst_of_not_mem hna]
    have := filter_length_removeFirst isUnitChar b s
    exact exists_of_filter_pos (by omega)
  · have hnb : b ∉ s := containsC_false_iff.mp hcb
    have hnb2 : b ∉ removeFirst a s := fun hm => hnb (mem_removeFirst hm)
    rw [removeFirst_of_not_mem hnb2]
    have := filter_length_removeFirst isUnitChar a s
    exact exists_of_filter_pos (by omega)
  · simp at hxor

/-- A misplaced or repeated unit letter always makes the conversion fail. -/
theorem conv_mur_err (s : Str) (h : MisplacedOrRepeated s) :
    ∃ e, memory_unit_conversion s = .error e := by
  unfold memory_unit_conversion
  by_cases hM : ((endsWith s 'M' || endsWith s 'm')
      && Bool.xor (containsC s 'M') (containsC s 'm')) = true
  · rw [if_pos hM]
    rw [Bool.and_eq_true] at hM
    obtain ⟨hor, hxor⟩ := hM
    rw [Bool.or_eq_true] at hor
    have hcount : 2 ≤ (s.filter isUnitChar).length := by
      rcases hor with he | he
      · exact mur_count_two h (by decide) he
      · exact mur_count_two h (by decide) he
    obtain ⟨c, hcm, hcu⟩ := mur_value_unit hcount hxor
    rw [parseU64_none_unit hcm hcu]
    exact ⟨_, rfl⟩
  · rw [if_neg hM]
    by_cases hG : ((endsWith s 'G' || endsWith s 'g')
        && Bool.xor (containsC s 'G') (containsC s 'g')) = true
    · rw [if_pos hG]
      rw [Bool.and_eq_true] at hG
      obtain ⟨hor, hxor⟩ := hG
      rw [Bool.or_eq_true] at hor
      have hcount : 2 ≤ (s.filter isUnitChar).length := by
        rcases hor with he | he
        · exact mur_count_two h (by decide) he
        · exact mur_count_two h (by decide) he
      obtain ⟨c, hcm, hcu⟩ := mur_value_unit hcount hxor
      rw [parseU64_none_unit hcm hcu]
      exact ⟨_, rfl⟩
    · rw [if_neg hG]
      have hex : ∃ c ∈ s, isUnitChar c = true := by
        rcases h with ⟨l₁, c, l₂, rfl, hc, -⟩ | h2
        · exact ⟨c, by simp, hc⟩
        · exact exists_of_filter_pos (by omega)
      obtain ⟨c, hcm, hcu⟩ := hex
      rw [parseU64_none_unit hcm hcu]
      exact ⟨_, rfl⟩

/-- C9.  `memory_unit_conversion` maps a decimal string with one trailing M
or m to its value in MiB, with one trailing G or g to its value in GiB, and
without a unit letter to MiB by default; a multiplication that would exceed
u64 yields an error instead of wrapping, a numeric part that does not parse
as u64 yields an error, and a misplaced or repeated unit letter yields an
error. -/
theorem memory_unit_conversion_spec :
    (∀ n : Str, n ≠ [] → (∀ c ∈ n, c.isDigit = true) →
      (digitsVal n * M < U64MOD →
        memory_unit_conversion (n ++ ['M']) = .ok (digitsVal n * M) ∧
        memory_unit_conversion (n ++ ['m']) = .ok (digitsVal n * M) ∧
        memory_unit_conversion n = .ok (digitsVal n * M)) ∧
      (digitsVal n * G < U64MOD →
        memory_unit_conversion (n ++ ['G']) = .ok (digitsVal n * G) ∧
        memory_unit_conversion (n ++ ['g']) = .ok (digitsVal n * G)) ∧
      (U64MOD ≤ digitsVal n * M →
        (∃ e, memory_unit_conversion (n ++ ['M']) = .error e) ∧
        (∃ e, memory_unit_conversion (n ++ ['m']) = .error e) ∧
        (∃ e, memory_unit_conversion n = .error e)) ∧
      (U64MOD ≤ digitsVal n * G →
        (∃ e, memory_unit_conversion (n ++ ['G']) = .error e) ∧
        (∃ e, memory_unit_conversion (n ++ ['g']) = .error e))) ∧
    (∀ s : Str, (∀ c ∈ s, isUnitChar c = false) → parseU64 s = none →
      (∀ u, isUnitChar u = true →
        ∃ e, memory_unit_conversion (s ++ [u]) = .error e) ∧
      (∃ e, memory_unit_conversion s = .error e)) ∧
    (∀ s : Str, MisplacedOrRepeated s →
      ∃ e, memory_unit_conversion s = .error e) := by
  refine ⟨?_, ?_, conv_mur_err⟩
  · intro n h1 h2
    have hUF := digits_unitFree h2
    refine ⟨fun h3 => ⟨?_, ?_, ?_⟩, fun h3 => ⟨?_, ?_⟩,
      fun h3 => ⟨?_, ?_, ?_⟩, fun h3 => ⟨?_, ?_⟩⟩
    · rw [conv_concat_M hUF]
      exact match_parse_ok h1 h2 h3 (by decide) _
    · rw [conv_concat_m hUF]
      exact match_parse_ok h1 h2 h3 (by decide) _
    · rw [conv_bare hUF]
      exact match_parse_ok h1 h2 h3 (by decide) _
    · rw [conv_concat_G hUF]
      exact match_parse_ok h1 h2 h3 (by decide) _
    · rw [conv_concat_g hUF]
      exact match_parse_ok h1 h2 h3 (by decide) _
    · rw [conv_concat_M hUF]
      exact match_parse_err h1 h2 h3 _
    · rw [conv_concat_m hUF]
      exact match_parse_err h1 h2 h3 _
    · rw [conv_bare hUF]
      exact match_parse_err h1 h2 h3 _
    · rw [conv_concat_G hUF]
      exact match_parse_err h1 h2 h3 _
    · rw [conv_concat_g hUF]
      exact match_parse_err h1 h2 h3 _
  · intro s hUF hp
    exact conv_unitfree_err hUF hp

/-- Witness for C9 at concrete inputs: six megabytes both suffixed and bare,
one gigabyte, a misplaced unit, and an overflowing multiplication. -/
theorem memory_unit_conversion_spec_witness :
    memory_unit_conversion ['6', 'M'] = .ok 6291456 ∧
    memory_unit_conversion ['6'] = .ok 6291456 ∧
    memory_unit_conversion ['1', 'G'] = .ok 1073741824 ∧
    (∃ e, memory_unit_conversion ['G', '6'] = .error e) ∧
    (∃ e, memory_unit_conversion
      ['9','9','9','9','9','9','9','9','9','9','9','9','9','9',
       'G'] = .error e) := by
  have hd6 : ∀ c ∈ ['6'], c.isDigit = true := by decide
  have hd1 : ∀ c ∈ ['1'], c.isDigit = true := by decide
  have h6 := (memory_unit_conversion_spec.1 ['6'] (by decide) hd6).1
    (by decide)
  have h1g := (memory_unit_conversion_spec.1 ['1'] (by decide) hd1).2.1
    (by decide)
  refine ⟨?_, ?_, ?_, ?_, ?_⟩
  · have := h6.1
    simpa [digitsVal, M] using this
  · have := h6.2.2
    simpa [digitsVal, M] using this
  · have := h1g.1
    simpa [digitsVal, G] using this
  · exact memory_unit_conversion_spec.2.2 ['G', '6']
      (Or.inl ⟨[], 'G', ['6'], rfl, by decide, by decide⟩)
  · have hd : ∀ c ∈ ['9','9','9','9','9','9','9','9','9','9','9','9','9','9'],
        c.isDigit = true := by decide
    have := ((memory_unit_conversion_spec.1
      ['9','9','9','9','9','9','9','9','9','9','9','9','9','9']
      (by decide) hd).2.2.2 (by decide)).1
    simpa using this




/-! ## VmConfig::add_cpu, embedded from `machine_config.rs` -/

inductive MachineType
  | None
  | MicroVm
  | StandardVm
deriving DecidableEq

structure MemZoneConfig where
  id : Str
  size : Nat
  host_numa_node : Option Nat
  policy : Str
deriving DecidableEq

structure MachineMemConfig where
  mem_size : Nat
  mem_path : Option Str
  dump_guest_core : Bool
  mem_share : Bool
  mem_prealloc : Bool
  mem_zones : Option (List MemZoneConfig)
deriving DecidableEq

structure MachineConfig where
  mach_type : MachineType
  nr_cpus : Nat
  mem_config : MachineMemConfig
deriving DecidableEq

/-- Only the field the embedded functions touch; the remaining fields of the
repository's `VmConfig` are outside the provided sources. -/
structure VmConfig where
  machine_config : MachineConfig
deriving DecidableEq

/-- Modelled from the spec: the parsed `-smp` values that the command-line
parser (`CmdParser`, outside the provided sources) yields to `add_cpu` for
the empty key and the `cpus`, `sockets`, `cores` and `threads` keys. -/
structure SmpArgs where
  positional : Option Nat
  cpus : Option Nat
  sockets : Option Nat
  cores : Option Nat
  threads : Option Nat

/-- The checks and the store of `add_cpu` after the cpu count has been
selected (the code after the `let cpu = ...` early return). -/
def add_cpu_checked (cfg : VmConfig) (a : SmpArgs) (cpu : Nat) :
    VmConfig × Option ErrorKind :=
  if (match a.sockets with
      | some s => s != cpu
      | none => false) then
    (cfg, some (.Msg
      "Invalid sockets arguments for smp, it should equal to the number of cpus".toList))
  else if (match a.cores with
           | some c => c != 1
           | none => false) then
    (cfg, some (.Msg
      "Invalid cores arguments for smp, it should be 1".toList))
  else if (match a.threads with
           | some t => t != 1
           | none => false) then
    (cfg, some (.Msg
      "Invalid threads arguments for smp, it should be 1".toList))
  else if ¬ (MIN_NR_CPUS ≤ cpu ∧ cpu ≤ MAX_NR_CPUS) then
    (cfg, some (.IllegalValue "CPU number".toList MIN_NR_CPUS true
      MAX_NR_CPUS true))
  else
    ({ cfg with machine_config :=
        { cfg.machine_config with nr_cpus := cpu % 256 } }, none)

/-- Embeds `VmConfig::add_cpu`: the `&mut self` method becomes a function
returning the updated configuration and the error, mirroring that the only
mutation, the `nr_cpus` store with its `as u8` cast, happens after every
check has passed; the cpu count comes from the empty key, else the `cpus`
key, else the call fails with `FieldIsMissing`. -/
def VmConfig.add_cpu (cfg : VmConfig) (a : SmpArgs) :
    VmConfig × Option ErrorKind :=
  match (match a.positional with
         | some c => some c
         | none => a.cpus) with
  | none => (cfg, some (.FieldIsMissing "cpus".toList "smp".toList))
  | some cpu => add_cpu_checked cfg a cpu

theorem add_cpu_eq (cfg : VmConfig) (a : SmpArgs) (cpu : Nat)
    (hsel : (match a.positional with
             | some c => some c
             | none => a.cpus) = some cpu) :
    cfg.add_cpu a = add_cpu_checked cfg a cpu := by
  unfold VmConfig.add_cpu
  rw [hsel]

/-- C10.  `add_cpu` errors whenever the parsed cpu count lies outside
[1, 254], or a given sockets value differs from the cpu count, or a given
cores or threads value differs from 1; on any error the configuration is
returned unchanged (nr_cpus keeps its prior value), and on success nr_cpus
equals the parsed count. -/
theorem add_cpu_spec (cfg : VmConfig) (a : SmpArgs) (cpu : Nat)
    (hcpu : a.positional = some cpu ∨
      (a.positional = none ∧ a.cpus = some cpu)) :
    ((cpu < MIN_NR_CPUS ∨ MAX_NR_CPUS < cpu ∨
      (∃ s, a.sockets = some s ∧ s ≠ cpu) ∨
      (∃ k, a.cores = some k ∧ k ≠ 1) ∨
      (∃ t, a.threads = some t ∧ t ≠ 1)) →
      ∃ e, (cfg.add_cpu a).2 = some e) ∧
    (∀ e, (cfg.add_cpu a).2 = some e → (cfg.add_cpu a).1 = cfg) ∧
    ((cfg.add_cpu a).2 = none →
      (cfg.add_cpu a).1.machine_config.nr_cpus = cpu) := by
  have hsel : (match a.positional with
               | some c => some c
               | none => a.cpus) = some cpu := by
    rcases hcpu with h | ⟨h1, h2⟩
    · rw [h]
    · rw [h1, h2]
  rw [add_cpu_eq cfg a cpu hsel]
  unfold add_cpu_checked
  by_cases hs : (match a.sockets with
                 | some s => s != cpu
                 | none => false) = true
  · rw [if_pos hs]
    refine ⟨fun _ => ⟨_, rfl⟩, fun e _ => rfl, fun hnone => ?_⟩
    cases hnone
  · rw [if_neg hs]
    by_cases hc : (match a.cores with
                   | some c => c != 1
                   | none => false) = true
    · rw [if_pos hc]
      refine ⟨fun _ => ⟨_, rfl⟩, fun e _ => rfl, fun hnone => ?_⟩
      cases hnone
    · rw [if_neg hc]
      by_cases ht : (match a.threads with
                     | some t => t != 1
                     | none => false) = true
      · rw [if_pos ht]
        refine ⟨fun _ => ⟨_, rfl⟩, fun e _ => rfl, fun hnone => ?_⟩
        cases hnone
      · rw [if_neg ht]
        by_cases hr : ¬ (MIN_NR_CPUS ≤ cpu ∧ cpu ≤ MAX_NR_CPUS)
        · rw [if_pos hr]
          refine ⟨fun _ => ⟨_, rfl⟩, fun e _ => rfl, fun hnone => ?_⟩
          cases hnone
        · rw [if_neg hr]
          rw [not_not] at hr
          refine ⟨fun hbad => ?_, fun e he => ?_, fun _ => ?_⟩
          · exfalso
            rcases hbad with h | h | ⟨s, hs2, hne⟩ | ⟨k, hc2, hne⟩ |
              ⟨t, ht2, hne⟩
            · exact absurd hr (by unfold MIN_NR_CPUS at *; omega)
            · exact absurd hr (by unfold MAX_NR_CPUS at *; omega)
            · rw [hs2] at hs
              simp only [bne_iff_ne] at hs
              exact hs (by simpa using hne)
            · rw [hc2] at hc
              simp only [bne_iff_ne] at hc
              exact hc (by simpa using hne)
            · rw [ht2] at ht
              simp only [bne_iff_ne] at ht
              exact ht (by simpa using hne)
          · cases he
          · show cpu % 256 = cpu
            have : cpu ≤ 254 := hr.2
            omega

/-- Witness for C10 at concrete inputs: 255 cpus is rejected with the
configuration unchanged, and 8 cpus with matching topology succeeds. -/
theorem add_cpu_spec_witness :
    (∃ e, (VmConfig.add_cpu
      ⟨⟨.MicroVm, 1, ⟨268435456, none, true, false, false, none⟩⟩⟩
      ⟨some 255, none, none, none, none⟩).2 = some e) ∧
    ((VmConfig.add_cpu
      ⟨⟨.MicroVm, 1, ⟨268435456, none, true, false, false, none⟩⟩⟩
      ⟨some 255, none, none, none, none⟩).1 =
      ⟨⟨.MicroVm, 1, ⟨268435456, none, true, false, false, none⟩⟩⟩) ∧
    ((VmConfig.add_cpu
      ⟨⟨.MicroVm, 1, ⟨268435456, none, true, false, false, none⟩⟩⟩
      ⟨some 8, none, some 8, some 1, some 1⟩).1.machine_config.nr_cpus =
      8) := by
  have h1 := add_cpu_spec
    ⟨⟨.MicroVm, 1, ⟨268435456, none, true, false, false, none⟩⟩⟩
    ⟨some 255, none, none, none, none⟩ 255 (Or.inl rfl)
  have h2 := add_cpu_spec
    ⟨⟨.MicroVm, 1, ⟨268435456, none, true, false, false, none⟩⟩⟩
    ⟨some 8, none, some 8, some 1, some 1⟩ 8 (Or.inl rfl)
  obtain ⟨e, he⟩ := h1.1 (Or.inr (Or.inl (by decide)))
  exact ⟨⟨e, he⟩, h1.2.1 e he, h2.2.2 rfl⟩

end Stratovirt
